import Mathlib

/-!
# Verification of the lumina tool-calling core

Shallow embedding of the conversation engine, tool dispatcher, memory/state
handlers, MCP manager and sandbox validator of the lumina repository, with
theorems settling the specification claims about them.

Conventions:
* Python module files are embedded function by function; Lean definitions keep
  the source names (minus the `handle_` noise only where Lean syntax forces it).
* Machine-external effects (the LLM, subprocesses, the clock, ChromaDB, the
  Brave API) are passed in as explicit oracle values.
* Python dicts keyed by strings are association lists (`List (String × _)`),
  with the first binding of a key shadowing later ones, as produced by the
  update operations below.
* A Python function that can raise an exception which its caller does not
  catch is embedded with result type `Except PyExc _`.
-/

set_option autoImplicit false

namespace Lumina

/-! ## Python primitives shared by the embedded modules -/

/-- A raised Python exception, as exception-class name plus message. -/
structure PyExc where
  excClass : String
  message : String
  deriving DecidableEq, Repr

/-- `a` is an initial segment of `b` (over characters). -/
def listStarts : List Char → List Char → Bool
  | [], _ => true
  | _ :: _, [] => false
  | a :: as, b :: bs => a = b && listStarts as bs

/-- Worker for splitting on a non-empty separator `s0 :: srest`, scanning left
to right and cutting at each non-overlapping occurrence (the semantics of
Python `str.split(sep)` and of the substring scan in `str.count`).  The fuel
is only a structural-recursion device; `splitSepFuel_congr` shows any fuel of
at least the input length gives the same answer, so the `0` branch below is
unreachable from `pySplitOn`. -/
def splitSepFuel (s0 : Char) (srest : List Char) : Nat → List Char → List Char → List (List Char)
  | _, [], acc => [acc.reverse]
  | fuel + 1, c :: rest, acc =>
      if c = s0 ∧ listStarts srest rest then
        acc.reverse :: splitSepFuel s0 srest fuel (rest.drop srest.length) []
      else
        splitSepFuel s0 srest fuel rest (c :: acc)
  | 0, c :: rest, acc => [acc.reverse ++ c :: rest]

/-- Split `s` at each non-overlapping occurrence of the non-empty separator
`sep`, left to right. -/
def pySplitOn (s sep : String) : List String :=
  match sep.data with
  | [] => [s]
  | s0 :: srest => (splitSepFuel s0 srest s.data.length s.data []).map String.mk

/-- Python `str.endswith(suf)`. -/
def pyEndsWith (s suf : String) : Bool :=
  listStarts suf.data.reverse s.data.reverse

/-- Python `str.removesuffix(suf)` (used with the constant suffix `".md"`). -/
def pyRemoveSuffix (s suf : String) : String :=
  if suf ≠ "" ∧ pyEndsWith s suf then
    String.mk (s.data.take (s.data.length - suf.data.length))
  else s

/-- `pathlib.PurePath(name).name`: the final path component.  `PurePath`
normalises away empty components (doubled or trailing slashes) and `"."`
components; `name` is the last remaining component, or `""` if none remain. -/
def pathlibName (s : String) : String :=
  let parts := (pySplitOn s "/").filter (fun p => p ≠ "" ∧ p ≠ ".")
  parts.getLastD ""

/-- Python `sub in s` / non-overlapping `s.count(sub)`, for `sub ≠ ""`:
`str.count` scans left to right counting disjoint occurrences, which are
exactly the cut points of `pySplitOn`. -/
def pyCount (s sub : String) : Nat :=
  (pySplitOn s sub).length - 1

/-- Python `s.replace(old, new, 1)` for `old ≠ ""`: replace the leftmost
occurrence only (no occurrence leaves `s` unchanged). -/
def pyReplaceFirst (s old new : String) : String :=
  match pySplitOn s old with
  | [] => s
  | [_] => s
  | p :: rest => p ++ new ++ String.intercalate old rest

/-- The characters Python `str.strip()` removes (the ASCII whitespace set;
the handlers never strip non-ASCII whitespace). -/
def isPyWhitespace (c : Char) : Bool :=
  c = ' ' ∨ c = '\t' ∨ c = '\n' ∨ c = '\r' ∨ c = '\x0b' ∨ c = '\x0c'

/-- Python `str.strip()`. -/
def pyStrip (s : String) : String :=
  String.mk (((s.data.dropWhile isPyWhitespace).reverse.dropWhile isPyWhitespace).reverse)

/-- Lexicographic comparison on code points, the order of Python `sorted` on
strings. -/
def charListLe : List Char → List Char → Bool
  | [], _ => true
  | _ :: _, [] => false
  | a :: as, b :: bs => if a = b then charListLe as bs else decide (a.toNat < b.toNat)

/-- Insert into a sorted list of strings (stable). -/
def insertStringSorted (x : String) : List String → List String
  | [] => [x]
  | y :: ys =>
      if charListLe x.data y.data then x :: y :: ys
      else y :: insertStringSorted x ys

/-- Python `sorted` on a list of strings. -/
def sortStrings (l : List String) : List String :=
  l.foldr insertStringSorted []

/-- Association-list lookup, mirroring Python `dict` access. -/
def alistFind {β : Type} (l : List (String × β)) (k : String) : Option β :=
  (l.find? (fun kv => kv.fst = k)).map (·.snd)

/-- Association-list update, mirroring Python `d[k] = v`. -/
def alistInsert {β : Type} (l : List (String × β)) (k : String) (v : β) : List (String × β) :=
  (k, v) :: l.filter (fun kv => kv.fst ≠ k)

/-- Association-list removal, mirroring Python `d.pop(k, None)`. -/
def alistErase {β : Type} (l : List (String × β)) (k : String) : List (String × β) :=
  l.filter (fun kv => kv.fst ≠ k)

/-! ## `app/sandbox.py` — static validator for AI-authored server code

The validator walks the parsed AST of the submitted source.  We embed the
fragment of the CPython `ast` node language that `validate_code` inspects
(`Import`, `ImportFrom`, `Call`, `Attribute`, `Name`) together with the
containers that can nest them; nodes the checker ignores are represented by
`otherStmt`.  `ast.parse` itself (text → tree) is not embedded: theorems
quantify over parsed trees, i.e. over source that is syntactically valid. -/

/-- A node of the Python AST fragment relevant to `validate_code`. -/
inductive PyNode where
  /-- `ast.Module` (the root produced by `ast.parse`). -/
  | module (body : List PyNode)
  /-- `ast.Import`, with the `alias.name` of each imported module. -/
  | importStmt (lineno : Nat) (names : List String)
  /-- `ast.ImportFrom`; `moduleName` is `None` for `from . import x`. -/
  | importFrom (lineno : Nat) (moduleName : Option String)
  /-- An expression statement wrapping a nested expression. -/
  | exprStmt (lineno : Nat) (value : PyNode)
  /-- `ast.Call`. -/
  | callExpr (lineno : Nat) (func : PyNode) (args : List PyNode)
  /-- `ast.Attribute`. -/
  | attrAccess (lineno : Nat) (value : PyNode) (attr : String)
  /-- `ast.Name`. -/
  | nameExpr (lineno : Nat) (id : String)
  /-- Any other node type: ignored by every check, no relevant children. -/
  | otherStmt (lineno : Nat)
  deriving Repr

namespace PyNode

/-- The child nodes visited by `ast.walk` (restricted to our fragment). -/
def children : PyNode → List PyNode
  | .module body => body
  | .importStmt _ _ => []
  | .importFrom _ _ => []
  | .exprStmt _ v => [v]
  | .callExpr _ f args => f :: args
  | .attrAccess _ v _ => [v]
  | .nameExpr _ _ => []
  | .otherStmt _ => []

mutual

/-- Size of a node (for termination of the breadth-first walk). -/
def nodeSize : PyNode → Nat
  | .module body => 1 + listSize body
  | .exprStmt _ v => 1 + nodeSize v
  | .callExpr _ f args => 1 + nodeSize f + listSize args
  | .attrAccess _ v _ => 1 + nodeSize v
  | .importStmt _ _ => 1
  | .importFrom _ _ => 1
  | .nameExpr _ _ => 1
  | .otherStmt _ => 1

/-- Total size of a list of nodes. -/
def listSize : List PyNode → Nat
  | [] => 0
  | n :: l => nodeSize n + listSize l

end

end PyNode

open PyNode in
/-- Breadth-first worker: structural recursion on a fuel that bounds the
total number of nodes still reachable from the queue. -/
def walkFuel : Nat → List PyNode → List PyNode
  | _, [] => []
  | 0, _ :: _ => []
  | fuel + 1, n :: rest => n :: walkFuel fuel (rest ++ n.children)

open PyNode in
/-- `ast.walk(tree)`: breadth-first enumeration of every node, starting from
the queue of roots (Python starts from `[tree]`).  `listSize q` fuel always
suffices, as `walk_cons` below proves. -/
def walk (q : List PyNode) : List PyNode :=
  walkFuel (listSize q) q

/-- `ALLOWED_MODULES`: modules the AI server code may always import. -/
def ALLOWED_MODULES : List String :=
  ["mcp", "json", "datetime", "math", "re", "collections", "typing",
   "dataclasses", "enum", "time", "string", "random", "itertools",
   "functools", "hashlib", "base64", "textwrap", "uuid", "decimal",
   "fractions", "statistics", "operator", "copy", "pprint", "io",
   "struct", "abc", "contextlib", "logging"]

/-- `NETWORK_MODULES`: modules that require `allow_network=true`. -/
def NETWORK_MODULES : List String :=
  ["socket", "urllib", "http", "requests", "httpx", "aiohttp", "ssl",
   "ftplib", "smtplib", "imaplib", "poplib", "xmlrpc"]

/-- `DANGEROUS_CALLS`: function names that must never be called. -/
def DANGEROUS_CALLS : List String :=
  ["eval", "exec", "compile", "__import__", "breakpoint", "exit", "quit"]

/-- `DANGEROUS_ATTRS`: dunder attributes that must never be accessed. -/
def DANGEROUS_ATTRS : List String :=
  ["__class__", "__bases__", "__subclasses__", "__mro__", "__globals__",
   "__code__", "__builtins__"]

/-- `_check_module`: the (zero or one) errors appended for one imported
module name. -/
def checkModuleErrors (allowNetwork : Bool) (lineno : Nat) (m : String) : List String :=
  let base := ((pySplitOn m ".").headD "")
  if base ∈ ALLOWED_MODULES then []
  else if base ∈ NETWORK_MODULES then
    if !allowNetwork then [s!"Line {lineno}: import '{m}' requires allow_network=true"]
    else []
  else [s!"Line {lineno}: import '{m}' is not allowed"]

/-- The name `validate_code` derives for a call target: `fn.id` for a plain
name, `fn.attr` for an attribute access, nothing otherwise. -/
def callTargetName : PyNode → Option String
  | .nameExpr _ i => some i
  | .attrAccess _ _ a => some a
  | _ => none

/-- The errors `validate_code` appends while visiting one node of the walk. -/
def nodeErrors (allowNetwork : Bool) : PyNode → List String
  | .importStmt lineno names => names.flatMap (checkModuleErrors allowNetwork lineno)
  | .importFrom lineno m? =>
      match m? with
      | some m => if m ≠ "" then checkModuleErrors allowNetwork lineno m else []
      | none => []
  | .callExpr lineno f _ =>
      match callTargetName f with
      | some nm =>
          if nm ∈ DANGEROUS_CALLS then
            [s!"Line {lineno}: call to '{nm}()' is forbidden"]
          else []
      | none => []
  | .attrAccess lineno _ a =>
      if a ∈ DANGEROUS_ATTRS then
        [s!"Line {lineno}: access to '{a}' is forbidden"]
      else []
  | _ => []

/-- `validate_code(code, allow_network)` on an already-parsed tree: walk every
node accumulating all violations; reject with the semicolon-joined message
when any violation was found.  (The `SyntaxError` early return is outside the
embedding, which starts from a parsed tree.) -/
def validate_code (tree : PyNode) (allow_network : Bool) : Bool × String :=
  let errors := (walk [tree]).foldl (fun acc n => acc ++ nodeErrors allow_network n) []
  if errors ≠ [] then (false, String.intercalate "; " errors) else (true, "")

/-! Syntactic predicates used to state the claims about `validate_code`. -/

/-- The tree contains an `import` statement for a module with base name `b`
(e.g. `import socket`). -/
def hasImportBase (b : String) (tree : PyNode) : Bool :=
  (walk [tree]).any fun n =>
    match n with
    | .importStmt _ names => names.any (fun m => (pySplitOn m ".").headD "" = b)
    | _ => false

/-- The tree contains a call whose derived target name is `nm`
(e.g. `eval(...)`). -/
def hasCallTo (nm : String) (tree : PyNode) : Bool :=
  (walk [tree]).any fun n =>
    match n with
    | .callExpr _ f _ => callTargetName f = some nm
    | _ => false

/-- The tree contains an access to attribute `a` (e.g. `x.__globals__`). -/
def hasAttr (a : String) (tree : PyNode) : Bool :=
  (walk [tree]).any fun n =>
    match n with
    | .attrAccess _ _ a' => a' = a
    | _ => false

/-- Every import in the tree (direct or `from`) has its base module inside
`mods`. -/
def importsWithin (mods : List String) (tree : PyNode) : Bool :=
  (walk [tree]).all fun n =>
    match n with
    | .importStmt _ names => names.all (fun m => ((pySplitOn m ".").headD "") ∈ mods)
    | .importFrom _ m? =>
        match m? with
        | some m => m = "" ∨ ((pySplitOn m ".").headD "") ∈ mods
        | none => true
    | _ => true

/-- No call in the tree targets a name in `DANGEROUS_CALLS`. -/
def noDangerousCalls (tree : PyNode) : Bool :=
  (walk [tree]).all fun n =>
    match n with
    | .callExpr _ f _ =>
        match callTargetName f with
        | some nm => nm ∉ DANGEROUS_CALLS
        | none => true
    | _ => true

/-- No attribute access in the tree names a member of `DANGEROUS_ATTRS`. -/
def noDangerousAttrs (tree : PyNode) : Bool :=
  (walk [tree]).all fun n =>
    match n with
    | .attrAccess _ _ a => a ∉ DANGEROUS_ATTRS
    | _ => true

/-! ## Tool arguments — JSON values

Tool-call arguments are produced by `json.loads` on model output, so an
argument value is an arbitrary JSON value. -/

/-- A JSON value (`float` payloads do not occur in any embedded path and are
not modelled). -/
inductive JVal where
  | str (s : String)
  | num (n : Int)
  | boolean (b : Bool)
  | null
  | arr (elems : List JVal)
  | obj (fields : List (String × JVal))
  deriving Repr

/-- An `arguments` dict. -/
def Args : Type := List (String × JVal)

/-- Python `arguments.get(key, default)`. -/
def dictGet (args : Args) (k : String) (dflt : JVal) : JVal :=
  match args.find? (fun kv => kv.fst = k) with
  | some kv => kv.snd
  | none => dflt

/-- The string read by `arguments.get(key, "")`.  The handlers apply string
methods to the result directly, so the embedding is faithful whenever the
argument is a JSON string (a non-string there makes CPython raise
`AttributeError`; none of the settled claims exercises that corner — the
`int()` coercion, which the handlers do apply to arbitrary values, is the
exception and is embedded fallibly as `pyToInt`). -/
def JVal.asStr : JVal → String
  | .str s => s
  | _ => ""

/-- `arguments.get(key, "")` read as a string. -/
def argStr (args : Args) (k : String) : String :=
  (dictGet args k (.str "")).asStr

/-- Python truthiness of a JSON value (`if value:` / `bool(value)`). -/
def JVal.truthy : JVal → Bool
  | .str s => s ≠ ""
  | .num n => n ≠ 0
  | .boolean b => b
  | .null => false
  | .arr l => !l.isEmpty
  | .obj l => !l.isEmpty

/-- Decimal digit value of a character, if any. -/
def digitVal (c : Char) : Option Nat :=
  if 48 ≤ c.toNat ∧ c.toNat ≤ 57 then some (c.toNat - 48) else none

/-- Accumulate a decimal number over digit characters. -/
def digitsToNat : List Char → Nat → Option Nat
  | [], acc => some acc
  | c :: cs, acc =>
      match digitVal c with
      | some d => digitsToNat cs (acc * 10 + d)
      | none => none

/-- Python `int(s)` on a string: strip whitespace, optional sign, decimal
digits; anything else raises `ValueError` (digit-group underscores are not
modelled). -/
def pyIntOfString (s : String) : Except PyExc Int :=
  let bad : Except PyExc Int :=
    .error ⟨"ValueError", s!"invalid literal for int() with base 10: '{s}'"⟩
  let core : List Char → Except PyExc Int := fun ds =>
    if ds = [] then bad
    else match digitsToNat ds 0 with
      | some n => .ok (n : Int)
      | none => bad
  match (pyStrip s).data with
  | '-' :: ds => (core ds).map (fun n => -n)
  | '+' :: ds => core ds
  | ds => core ds

/-- Python `int(value)` on an arbitrary (JSON-shaped) value. -/
def pyToInt : JVal → Except PyExc Int
  | .str s => pyIntOfString s
  | .num n => .ok n
  | .boolean b => .ok (if b then 1 else 0)
  | .null => .error ⟨"TypeError",
      "int() argument must be a string, a bytes-like object or a real number, not 'NoneType'"⟩
  | .arr _ => .error ⟨"TypeError",
      "int() argument must be a string, a bytes-like object or a real number, not 'list'"⟩
  | .obj _ => .error ⟨"TypeError",
      "int() argument must be a string, a bytes-like object or a real number, not 'dict'"⟩

/-- Escape the characters `json.dumps` always escapes (non-ASCII `\\uXXXX`
escaping is not modelled; no settled claim formats non-ASCII values). -/
def jsonEscapeChar (c : Char) : String :=
  if c = '\\' then "\\\\"
  else if c = '"' then "\\\""
  else if c = '\n' then "\\n"
  else if c = '\t' then "\\t"
  else if c = '\r' then "\\r"
  else String.mk [c]

/-- String-body escaping of `json.dumps`. -/
def jsonEscape (s : String) : String :=
  String.join (s.data.map jsonEscapeChar)

mutual

/-- `json.dumps(value)` with default separators. -/
def jsonDumps : JVal → String
  | .str s => "\"" ++ jsonEscape s ++ "\""
  | .num n => toString n
  | .boolean b => if b then "true" else "false"
  | .null => "null"
  | .arr l => "[" ++ jsonDumpsList l ++ "]"
  | .obj l => "\x7b" ++ jsonDumpsObj l ++ "\x7d"

/-- Elements of a JSON array, comma-joined. -/
def jsonDumpsList : List JVal → String
  | [] => ""
  | [v] => jsonDumps v
  | v :: rest => jsonDumps v ++ ", " ++ jsonDumpsList rest

/-- Fields of a JSON object, comma-joined. -/
def jsonDumpsObj : List (String × JVal) → String
  | [] => ""
  | [(k, v)] => "\"" ++ jsonEscape k ++ "\": " ++ jsonDumps v
  | (k, v) :: rest => "\"" ++ jsonEscape k ++ "\": " ++ jsonDumps v ++ ", " ++ jsonDumpsObj rest

end

/-- Python `str(value)` as used in f-strings over state values: a string
formats as itself, other values approximately as their JSON form (Python
`repr` quoting of containers differs cosmetically; no settled claim reads
these messages). -/
def JVal.pyStr : JVal → String
  | .str s => s
  | v => jsonDumps v

/-! ## `app/tools/_common.py` — shared helpers

`memories_dir`/`state_path` fix the on-disk locations; the embedding keys the
memory store by sanitised stem instead of absolute path, which identifies the
same files because every handler goes through `safe_filename`.  `git_commit`
shells out to git, swallows every failure, and never touches the memory
contents, so it has no effect on the modelled state. -/

/-- The memory directory: sanitised stem ↦ file content. -/
def Memories : Type := List (String × String)

/-- `safe_filename`: strip a trailing `.md`, keep only the final path
component.  (The source then returns `memories_dir()/f"{name}.md"`; we key
the store by `name`.) -/
def safe_filename (filename : String) : String :=
  pathlibName (pyRemoveSuffix filename ".md")

/-! ## `app/tools/_memory.py` — memory tool handlers -/

/-- `handle_memory_create`. -/
def handle_memory_create (mem : Memories) (arguments : Args) : String × Memories :=
  let filename := argStr arguments "filename"
  let content := argStr arguments "content"
  if filename = "" then ("Error: filename is required.", mem)
  else
    let nm := safe_filename filename
    match alistFind mem nm with
    | some _ => (s!"Memory '{filename}' already exists. Use memory_edit to update it.", mem)
    | none => (s!"Memory '{filename}' created.", alistInsert mem nm content)

/-- `handle_memory_list`. -/
def handle_memory_list (mem : Memories) : String :=
  let files := sortStrings (mem.map (·.fst))
  if files = [] then "No memories found."
  else "Memories:\n" ++ String.intercalate "\n" (files.map (fun f => s!"- {f}"))

/-- `handle_memory_read`. -/
def handle_memory_read (mem : Memories) (arguments : Args) : String :=
  let filename := argStr arguments "filename"
  if filename = "" then "Error: filename is required."
  else
    match alistFind mem (safe_filename filename) with
    | none => s!"Memory '{filename}' not found."
    | some content => content

/-- `handle_memory_edit`. -/
def handle_memory_edit (mem : Memories) (arguments : Args) : String × Memories :=
  let filename := argStr arguments "filename"
  let content := argStr arguments "content"
  if filename = "" then ("Error: filename is required.", mem)
  else
    let nm := safe_filename filename
    match alistFind mem nm with
    | none => (s!"Memory '{filename}' not found. Use memory_create to create it.", mem)
    | some _ => (s!"Memory '{filename}' updated.", alistInsert mem nm content)

/-- `handle_memory_delete`. -/
def handle_memory_delete (mem : Memories) (arguments : Args) : String × Memories :=
  let filename := argStr arguments "filename"
  if filename = "" then ("Error: filename is required.", mem)
  else
    let nm := safe_filename filename
    match alistFind mem nm with
    | none => (s!"Memory '{filename}' not found.", mem)
    | some _ => (s!"Memory '{filename}' deleted.", alistErase mem nm)

/-- `handle_memory_patch`: the target substring must occur exactly once. -/
def handle_memory_patch (mem : Memories) (arguments : Args) : String × Memories :=
  let filename := argStr arguments "filename"
  let old_string := argStr arguments "old_string"
  let new_string := argStr arguments "new_string"
  if filename = "" then ("Error: filename is required.", mem)
  else if old_string = "" then ("Error: old_string is required.", mem)
  else
    let nm := safe_filename filename
    match alistFind mem nm with
    | none => (s!"Memory '{filename}' not found.", mem)
    | some content =>
      let count := pyCount content old_string
      if count = 0 then (s!"Error: old_string not found in memory '{filename}'.", mem)
      else if count > 1 then
        (s!"Error: old_string matches {count} times in memory '{filename}'. Provide a more specific string.",
         mem)
      else
        (s!"Memory '{filename}' patched.",
         alistInsert mem nm (pyReplaceFirst content old_string new_string))

/-! ## `app/tools/_state.py` — key/value state handlers

`_load_state`/`_save_state` read and write one JSON object file; the
embedding carries that object directly (the corrupt-file fallback to `{}`
would need an unparseable file, which no modelled transition writes). -/

/-- The persistent state object. -/
def StateStore : Type := List (String × JVal)

/-- `handle_state_set`; `nowIso` is `datetime.now(timezone.utc).isoformat()`. -/
def handle_state_set (st : StateStore) (arguments : Args) (nowIso : String) :
    String × StateStore :=
  let key := pyStrip (dictGet arguments "key" (.str "")).pyStr
  if key = "" then ("Error: key is required.", st)
  else
    let value := dictGet arguments "value" .null
    let value := match value with
      | .str s => if s = "now" then JVal.str nowIso else .str s
      | v => v
    (s!"State '{key}' set to " ++ jsonDumps value ++ ".", alistInsert st key value)

/-- `handle_state_get`. -/
def handle_state_get (st : StateStore) (arguments : Args) : String :=
  let key := pyStrip (dictGet arguments "key" (.str "")).pyStr
  if key = "" then "Error: key is required."
  else
    match alistFind st key with
    | none => s!"Key '{key}' not found."
    | some v => s!"{key}: " ++ jsonDumps v

/-- `handle_state_list`. -/
def handle_state_list (st : StateStore) : String :=
  if st.isEmpty then "State is empty."
  else
    "State:\n" ++ String.intercalate "\n"
      (st.map (fun kv => s!"- " ++ kv.fst ++ ": " ++ jsonDumps kv.snd))

/-- Render a non-negative seconds total as `h/m/s` parts, per
`handle_state_check_time`. -/
def humanElapsed (totalAbs : Nat) : String :=
  let hours := totalAbs / 3600
  let remainder := totalAbs % 3600
  let minutes := remainder / 60
  let seconds := remainder % 60
  let parts : List String :=
    (if hours ≠ 0 then [s!"{hours}h"] else [])
      ++ (if minutes ≠ 0 then [s!"{minutes}m"] else [])
      ++ [s!"{seconds}s"]
  String.intercalate " " parts

/-- `handle_state_check_time`; `parseIsoEpoch` stands for
`datetime.fromisoformat` (returning epoch seconds; it fails on non-string or
unparseable values, the `ValueError`/`TypeError` path), `nowEpoch` for the
current time. -/
def handle_state_check_time (st : StateStore) (arguments : Args)
    (parseIsoEpoch : String → Option Int) (nowEpoch : Int) : String :=
  let key := pyStrip (argStr arguments "key")
  if key = "" then "Error: key is required."
  else
    match alistFind st key with
    | none => s!"Key '{key}' not found."
    | some v =>
      let parsed := match v with
        | .str s => parseIsoEpoch s
        | _ => none
      match parsed with
      | none =>
          let vs := v.pyStr
          s!"Error: '{key}' value '{vs}' is not a valid timestamp."
      | some ts =>
          let total : Int := nowEpoch - ts
          let human := humanElapsed total.natAbs
          s!"'{key}' was {human} ago ({total} seconds). Timestamp: " ++ v.pyStr

/-! ## `app/tools/_bash.py` — shell execution handler -/

/-- What the spawned shell command would do: how long it runs, its combined
stdout/stderr, its exit code. -/
structure ProcBehavior where
  runSeconds : Nat
  stdout : String
  returncode : Int

/-- The hard timeout passed to `asyncio.wait_for`. -/
def RUN_COMMAND_TIMEOUT : Nat := 30

/-- Output cap before truncation. -/
def RUN_COMMAND_MAX_OUTPUT : Nat := 4000

/-- `handle_run_command`.  Returns the reply string and whether the handler
killed the subprocess (`proc.kill()` on the timeout path).  A completion
within the timeout returns the stripped output, truncated with a marker past
4000 characters, or the exit-code message when the output is empty. -/
def handle_run_command (arguments : Args) (proc : ProcBehavior) : String × Bool :=
  let command := pyStrip (argStr arguments "command")
  if command = "" then ("Error: command is required.", false)
  else if proc.runSeconds > RUN_COMMAND_TIMEOUT then
    ("Error: command timed out after 30 seconds.", true)
  else
    let output := pyStrip proc.stdout
    let output :=
      if output.length > RUN_COMMAND_MAX_OUTPUT then
        String.mk (output.data.take RUN_COMMAND_MAX_OUTPUT) ++ "\n... (truncated)"
      else output
    (if output ≠ "" then output
     else s!"Command exited with code {proc.returncode} (no output).", false)

/-! ## `app/mcp_manager.py` — MCP client manager

Subprocess transport, `ClientSession` and `AsyncExitStack` are external; a
live session is represented by the server's presence in the session name
list, and connecting (spawn + `initialize()` + `list_tools()`) by the
`connectTools` oracle, which yields the tool declarations the server makes at
connect time, or the text of the exception the connect raised. -/

/-- One tool schema discovered from an MCP server
(`{name, description, input_schema}`). -/
structure ToolInfo where
  name : String
  description : String
  inputSchema : JVal
  deriving Repr

/-- Python slice `l[i:]` with a possibly negative start index. -/
def pySliceFrom {α : Type} (l : List α) (i : Int) : List α :=
  if 0 ≤ i then l.drop (min i.toNat l.length)
  else l.drop (l.length - min (-i).toNat l.length)

/-- The mutable state of `MCPManager`. -/
structure MCPManagerState where
  /-- `_sessions`: config-defined servers with a live session. -/
  sessions : List String
  /-- `_tools`: tool name ↦ (owning server name, schema). -/
  tools : List (String × String × ToolInfo)
  /-- `_ai_sessions`: AI-created servers with a live session
  (`_ai_exit_stacks` mirrors this set and is not tracked separately). -/
  aiSessions : List String
  /-- `_ai_stderr_files`: servers for which a stderr log path was recorded. -/
  aiStderr : List String
  /-- `_ai_tools`: server name ↦ tool names registered at its start. -/
  aiTools : List (String × List String)
  deriving Repr

/-- What the AI servers' side of the world does: connect results, log file
contents, forwarded tool-call results, `ast.parse`, the clock. -/
structure World where
  /-- Starting server `name` (spawn, `initialize`, `list_tools`): the tools it
  declares, or the exception text. -/
  connectTools : String → Bool → Except String (List ToolInfo)
  /-- Behaviour of the shell command given to `handle_run_command`. -/
  runProc : String → ProcBehavior
  /-- Text assembled from a Brave search (the whole `try` body, which catches
  all of its own failures). -/
  braveText : String → Int → String
  /-- Text assembled from a ChromaDB query (the whole `try` body; the
  float-formatted distances are not re-embedded). -/
  vectorQueryText : String → Int → String
  /-- Contents of a server's stderr log file. -/
  aiServerLogs : String → List String
  /-- Text extracted from a forwarded `session.call_tool` result. -/
  mcpCallText : String → Args → String
  /-- `ast.parse`: the tree, or the `SyntaxError` (lineno, msg). -/
  parseCode : String → Except (Nat × String) PyNode
  /-- `datetime.now(timezone.utc).isoformat()`. -/
  nowIso : String
  /-- The current time as epoch seconds. -/
  nowEpoch : Int
  /-- `datetime.fromisoformat` as epoch seconds, `none` on `ValueError`. -/
  parseIsoEpoch : String → Option Int

/-- `MCPManager.start_ai_server`.  Returns the result (tool names registered,
or the exception raised) together with the manager state after the call: a
failed connect has still recorded the stderr log file, but registers no
session and no tools.  File-system side effects (wrapper script, sandbox
directory) are external.  `serverFiles` holds the `server.py` contents. -/
def start_ai_server (st : MCPManagerState) (world : World) (name : String)
    (serverFiles : List (String × String)) (allow_network : Bool) :
    Except PyExc (List String) × MCPManagerState :=
  if name ∈ st.aiSessions then
    (.error ⟨"RuntimeError", s!"AI server '{name}' is already running"⟩, st)
  else if (alistFind serverFiles name).isNone then
    (.error ⟨"FileNotFoundError", s!"Server script not found: {name}/server.py"⟩, st)
  else
    let st := { st with
      aiStderr := if name ∈ st.aiStderr then st.aiStderr else st.aiStderr ++ [name] }
    match world.connectTools name allow_network with
    | .error e => (.error ⟨"Exception", e⟩, st)
    | .ok decls =>
        let toolNames := decls.map (·.name)
        (.ok toolNames,
         { st with
           tools := decls.foldl (fun tbl t => alistInsert tbl t.name (name, t)) st.tools,
           aiSessions := st.aiSessions ++ [name],
           aiTools := alistInsert st.aiTools name toolNames })

/-- `MCPManager.stop_ai_server`: pop the tool names recorded for this server
from the flat table, then drop the session.  Returns whether it was running. -/
def stop_ai_server (st : MCPManagerState) (name : String) :
    Bool × MCPManagerState :=
  if name ∉ st.aiSessions then (false, st)
  else
    let recorded := (alistFind st.aiTools name).getD []
    (true,
     { st with
       tools := recorded.foldl (fun tbl tn => alistErase tbl tn) st.tools,
       aiSessions := st.aiSessions.filter (fun n => n ≠ name),
       aiTools := alistErase st.aiTools name })

/-- `MCPManager.restart_ai_server`. -/
def restart_ai_server (st : MCPManagerState) (world : World) (name : String)
    (serverFiles : List (String × String)) (allow_network : Bool) :
    Except PyExc (List String) × MCPManagerState :=
  let (_, st) := stop_ai_server st name
  start_ai_server st world name serverFiles allow_network

/-- `MCPManager.is_ai_server_running`. -/
def is_ai_server_running (st : MCPManagerState) (name : String) : Prop :=
  name ∈ st.aiSessions

instance (st : MCPManagerState) (name : String) :
    Decidable (is_ai_server_running st name) :=
  inferInstanceAs (Decidable (name ∈ st.aiSessions))

/-- `MCPManager.get_ai_server_tools`. -/
def get_ai_server_tools (st : MCPManagerState) (name : String) : List String :=
  (alistFind st.aiTools name).getD []

/-- `MCPManager.get_ai_server_logs`: last `lines` lines of the recorded
stderr file (`all_lines[-lines:]`). -/
def get_ai_server_logs (st : MCPManagerState) (world : World) (name : String)
    (lines : Int) : List String :=
  if name ∉ st.aiStderr then []
  else pySliceFrom (world.aiServerLogs name) (-lines)

/-- `MCPManager.has_tool`. -/
def has_tool (st : MCPManagerState) (name : String) : Prop :=
  (alistFind st.tools name).isSome

instance (st : MCPManagerState) (name : String) : Decidable (has_tool st name) :=
  inferInstanceAs (Decidable ((alistFind st.tools name).isSome = true))

/-- `MCPManager.call_tool`: look up the owner, find its live connection among
the static or AI session tables, forward. -/
def call_tool (st : MCPManagerState) (world : World) (name : String)
    (arguments : Args) : String :=
  match alistFind st.tools name with
  | none => s!"Error: unknown MCP tool '{name}'"
  | some (server_name, _) =>
      if server_name ∈ st.sessions ∨ server_name ∈ st.aiSessions then
        world.mcpCallText name arguments
      else s!"Error: MCP server '{server_name}' is not connected"

/-! ## `app/tools/_mcp_servers.py` — AI-server management handlers

The server directories, `server.py` files and the manifest live under the
state directory; `git_commit` is the same best-effort no-op as for memories. -/

/-- One manifest entry.  (The source stores a plain dict; a key missing from
a hand-edited manifest reads as this structure's field defaults via
`meta.get(key, default)`.) -/
structure ManifestEntry where
  description : String
  allow_network : Bool
  auto_start : Bool
  created_at : String
  modified_at : String
  deriving Repr

/-- On-disk state of the `mcp_servers` directory. -/
structure ServersOnDisk where
  /-- Existing server directories, by name. -/
  dirs : List String
  /-- `server.py` contents, by server name. -/
  files : List (String × String)
  /-- `manifest.json`. -/
  manifest : List (String × ManifestEntry)
  deriving Repr

/-- ASCII letter (the character class `[a-zA-Z]`). -/
def isAsciiAlpha (c : Char) : Bool :=
  (65 ≤ c.toNat ∧ c.toNat ≤ 90) ∨ (97 ≤ c.toNat ∧ c.toNat ≤ 122)

/-- The character class `[a-zA-Z0-9_]`. -/
def isAsciiWordChar (c : Char) : Bool :=
  isAsciiAlpha c ∨ (48 ≤ c.toNat ∧ c.toNat ≤ 57) ∨ c = '_'

/-- `re.match(r"^[a-zA-Z][a-zA-Z0-9_]*$", s)` (on an already-stripped name,
so the `$`-before-final-newline subtlety cannot arise). -/
def safeNameMatches (s : String) : Bool :=
  match s.data with
  | [] => false
  | c :: rest => isAsciiAlpha c && rest.all isAsciiWordChar

/-- `_safe_name`: strip, then validate shape and length; `ValueError`
messages are returned in `.error` (every caller catches them). -/
def safeName (name : String) : Except String String :=
  let n := pyStrip name
  if n = "" then .error "Server name is required"
  else if ¬ safeNameMatches n then
    .error "Server name must start with a letter and contain only letters, digits, and underscores"
  else if n.length > 64 then .error "Server name must be 64 characters or less"
  else .ok n

/-- A ChromaDB entry. -/
structure VectorEntry where
  id : String
  document : String
  metadata : JVal
  deriving Repr

/-- The combined mutable state threaded through the dispatcher. -/
structure SysState where
  memories : Memories
  stateStore : StateStore
  disk : ServersOnDisk
  manager : MCPManagerState
  /-- `none` = vector search not initialised. -/
  vector : Option (List VectorEntry)

/-- `validate_code` on raw source: `ast.parse` first (`SyntaxError` short
circuit), then the tree walk. -/
def validate_code_str (world : World) (code : String) (allow_network : Bool) :
    Bool × String :=
  match world.parseCode code with
  | .error ln_msg => (false, s!"Syntax error on line {ln_msg.fst}: {ln_msg.snd}")
  | .ok tree => validate_code tree allow_network

/-- `handle_mcp_server_create`; `network_allowed` is the keyword-only
parameter (the dispatcher leaves it at its `False` default). -/
def handle_mcp_server_create (arguments : Args) (sys : SysState) (world : World)
    (network_allowed : Bool) : String × SysState :=
  match safeName (argStr arguments "name") with
  | .error e => (s!"Error: {e}", sys)
  | .ok name =>
    let code := pyStrip (argStr arguments "code")
    if code = "" then ("Error: code is required.", sys)
    else
      let description := argStr arguments "description"
      let allow_network := (dictGet arguments "allow_network" (.boolean false)).truthy
        && network_allowed
      let auto_start := (dictGet arguments "auto_start" (.boolean true)).truthy
      if name ∈ sys.disk.dirs then
        (s!"Error: server '{name}' already exists. Use mcp_server_edit to update it.", sys)
      else
        let v := validate_code_str world code allow_network
        if ¬ v.fst then (s!"Code validation failed: " ++ v.snd, sys)
        else
          let disk' : ServersOnDisk :=
            { dirs := sys.disk.dirs ++ [name],
              files := alistInsert sys.disk.files name code,
              manifest := alistInsert sys.disk.manifest name
                ⟨description, allow_network, auto_start, world.nowIso, world.nowIso⟩ }
          let sys := { sys with disk := disk' }
          if auto_start then
            match start_ai_server sys.manager world name disk'.files allow_network with
            | (.ok tools, mgr') =>
                (s!"Server '{name}' created and started. Tools: "
                  ++ (if tools ≠ [] then String.intercalate ", " tools else "none"),
                 { sys with manager := mgr' })
            | (.error e, mgr') =>
                (s!"Server '{name}' created but failed to start: " ++ e.message,
                 { sys with manager := mgr' })
          else (s!"Server '{name}' created (not started).", sys)

/-- `handle_mcp_server_edit`. -/
def handle_mcp_server_edit (arguments : Args) (sys : SysState) (world : World) :
    String × SysState :=
  match safeName (argStr arguments "name") with
  | .error e => (s!"Error: {e}", sys)
  | .ok name =>
    let code := pyStrip (argStr arguments "code")
    if code = "" then ("Error: code is required.", sys)
    else if name ∉ sys.disk.dirs then (s!"Error: server '{name}' does not exist.", sys)
    else
      let meta := (alistFind sys.disk.manifest name).getD ⟨"", false, false, "", ""⟩
      let allow_network := meta.allow_network
      let v := validate_code_str world code allow_network
      if ¬ v.fst then (s!"Code validation failed: " ++ v.snd, sys)
      else
        let was_running := name ∈ sys.manager.aiSessions
        let mgr := if was_running then (stop_ai_server sys.manager name).snd else sys.manager
        let disk' : ServersOnDisk :=
          { sys.disk with
            files := alistInsert sys.disk.files name code,
            manifest := alistInsert sys.disk.manifest name
              { meta with modified_at := world.nowIso } }
        let sys := { sys with disk := disk', manager := mgr }
        if was_running then
          match start_ai_server sys.manager world name disk'.files allow_network with
          | (.ok tools, mgr') =>
              (s!"Server '{name}' updated and restarted. Tools: "
                ++ (if tools ≠ [] then String.intercalate ", " tools else "none"),
               { sys with manager := mgr' })
          | (.error e, mgr') =>
              (s!"Server '{name}' updated but failed to restart: " ++ e.message,
               { sys with manager := mgr' })
        else (s!"Server '{name}' updated (not running).", sys)

/-- `handle_mcp_server_delete`. -/
def handle_mcp_server_delete (arguments : Args) (sys : SysState) :
    String × SysState :=
  match safeName (argStr arguments "name") with
  | .error e => (s!"Error: {e}", sys)
  | .ok name =>
    if name ∉ sys.disk.dirs then (s!"Error: server '{name}' does not exist.", sys)
    else
      let mgr := (stop_ai_server sys.manager name).snd
      let disk' : ServersOnDisk :=
        { dirs := sys.disk.dirs.filter (fun n => n ≠ name),
          files := alistErase sys.disk.files name,
          manifest := alistErase sys.disk.manifest name }
      (s!"Server '{name}' deleted.", { sys with disk := disk', manager := mgr })

/-- `handle_mcp_server_list`: manifest entries, sorted by name. -/
def handle_mcp_server_list (sys : SysState) : String :=
  if sys.disk.manifest.isEmpty then "No AI-created MCP servers."
  else
    let blocks := (sortStrings (sys.disk.manifest.map (·.fst))).map (fun name =>
      let meta := (alistFind sys.disk.manifest name).getD ⟨"", false, false, "", ""⟩
      let running : Bool := name ∈ sys.manager.aiSessions
      let tools := if running then get_ai_server_tools sys.manager name else []
      let status := if running then "running" else "stopped"
      let parts := [s!"**{name}** [{status}]"]
        ++ (if meta.description ≠ "" then [s!"  " ++ meta.description] else [])
        ++ (if tools ≠ [] then [s!"  Tools: " ++ String.intercalate ", " tools] else [])
      String.intercalate "\n" parts)
    String.intercalate "\n\n" blocks

/-- `handle_mcp_server_start`. -/
def handle_mcp_server_start (arguments : Args) (sys : SysState) (world : World) :
    String × SysState :=
  match safeName (argStr arguments "name") with
  | .error e => (s!"Error: {e}", sys)
  | .ok name =>
    if name ∈ sys.manager.aiSessions then (s!"Server '{name}' is already running.", sys)
    else if name ∉ sys.disk.dirs then (s!"Error: server '{name}' does not exist.", sys)
    else
      let meta := (alistFind sys.disk.manifest name).getD ⟨"", false, false, "", ""⟩
      match start_ai_server sys.manager world name sys.disk.files meta.allow_network with
      | (.ok tools, mgr') =>
          (s!"Server '{name}' started. Tools: "
            ++ (if tools ≠ [] then String.intercalate ", " tools else "none"),
           { sys with manager := mgr' })
      | (.error e, mgr') =>
          (s!"Failed to start server '{name}': " ++ e.message, { sys with manager := mgr' })

/-- `handle_mcp_server_stop`. -/
def handle_mcp_server_stop (arguments : Args) (sys : SysState) :
    String × SysState :=
  match safeName (argStr arguments "name") with
  | .error e => (s!"Error: {e}", sys)
  | .ok name =>
    if name ∉ sys.manager.aiSessions then (s!"Server '{name}' is not running.", sys)
    else
      let mgr := (stop_ai_server sys.manager name).snd
      (s!"Server '{name}' stopped.", { sys with manager := mgr })

/-- `handle_mcp_server_logs`: `int(arguments.get("lines", 50))` happens
outside any `try`, so an unconvertible value raises out of the handler. -/
def handle_mcp_server_logs (arguments : Args) (sys : SysState) (world : World) :
    Except PyExc String :=
  match safeName (argStr arguments "name") with
  | .error e => .ok s!"Error: {e}"
  | .ok name => do
    let linesRaw ← pyToInt (dictGet arguments "lines" (.num 50))
    let lines_count := min linesRaw 200
    let lines := get_ai_server_logs sys.manager world name lines_count
    pure (if lines.isEmpty then s!"No logs for server '{name}'."
          else String.intercalate "\n" lines)

/-! ## `app/tools/_web_search.py` — Brave search handler

`int(arguments.get("count", 5))` runs before the `try`, so it can raise; the
`try` body (client call, result formatting, and the `except` that stringifies
every failure) is total and is represented by the `braveText` oracle. -/

/-- `handle_web_search`. -/
def handle_web_search (arguments : Args) (brave_api_key : String) (world : World) :
    Except PyExc String :=
  let query := pyStrip (argStr arguments "query")
  if query = "" then .ok "Error: query is required."
  else do
    let c ← pyToInt (dictGet arguments "count" (.num 5))
    let count := min c 20
    let _ := brave_api_key
    pure (world.braveText query count)

/-! ## `app/tools/_vector.py` — vector search handlers

The ChromaDB collection is `sys.vector` (`none` = not initialised).  In
`handle_vector_search`, `int(arguments.get("n", 5))` runs before the `try`
and can raise; the `try` body (query + float-formatted rendering) catches its
own failures and is represented by the `vectorQueryText` oracle. -/

/-- `handle_vector_save`. -/
def handle_vector_save (sys : SysState) (arguments : Args) : String × SysState :=
  match sys.vector with
  | none => ("Error: vector search not initialized.", sys)
  | some db =>
    let entry_id := pyStrip (argStr arguments "id")
    let content := pyStrip (argStr arguments "content")
    if entry_id = "" then ("Error: id is required.", sys)
    else if content = "" then ("Error: content is required.", sys)
    else
      let m := dictGet arguments "metadata" .null
      let metadata := if m.truthy then m else .obj []
      let db' := (db.filter (fun e => e.id ≠ entry_id)) ++ [⟨entry_id, content, metadata⟩]
      (s!"Saved entry '{entry_id}' to vector database.", { sys with vector := some db' })

/-- `handle_vector_search`. -/
def handle_vector_search (sys : SysState) (arguments : Args) (world : World) :
    Except PyExc String :=
  match sys.vector with
  | none => .ok "Error: vector search not initialized."
  | some db =>
    let query := pyStrip (argStr arguments "query")
    if query = "" then .ok "Error: query is required."
    else do
      let nRaw ← pyToInt (dictGet arguments "n" (.num 5))
      let n := min nRaw 20
      if db.isEmpty then pure "Vector database is empty."
      else pure (world.vectorQueryText query n)

/-- `handle_vector_delete`. -/
def handle_vector_delete (sys : SysState) (arguments : Args) : String × SysState :=
  match sys.vector with
  | none => ("Error: vector search not initialized.", sys)
  | some db =>
    let entry_id := pyStrip (argStr arguments "id")
    if entry_id = "" then ("Error: id is required.", sys)
    else
      (s!"Deleted entry '{entry_id}' from vector database.",
       { sys with vector := some (db.filter (fun e => e.id ≠ entry_id)) })

/-- `handle_vector_list`. -/
def handle_vector_list (sys : SysState) : String :=
  match sys.vector with
  | none => "Error: vector search not initialized."
  | some db =>
    let ids := db.map (·.id)
    if ids.isEmpty then "Vector database is empty."
    else
      s!"Vector database entries ({ids.length}):\n"
        ++ String.intercalate "\n" ((sortStrings ids).map (fun eid => s!"- {eid}"))

/-! ## `app/tools/_dispatch.py` — the central dispatcher

The broadcast callables (`play_animation_fn`, `set_background_fn`,
`notify_tool_call_fn`) only push events to connected clients; the dispatcher
observes nothing of them beyond `set_background_fn`'s presence, which gates
its branch. -/

/-- The dispatcher's keyword context: animation names, background names
(`None` is the empty list — both are falsy where the code tests truthiness),
whether a `set_background_fn` was supplied, and the resolved Brave API key of
`builtin_tools_config` (empty = unset). -/
structure DispatchCtx where
  animation_names : List String
  background_names : List String
  hasSetBackground : Bool
  braveKey : String

/-- `handle_tool_call`: route a (name, arguments) pair through the if-chain
of built-in handlers, then the MCP table, else the unknown-tool string.  A
handler that raises (the un-guarded `int()` coercions) propagates out as
`.error`. -/
def handle_tool_call (name : String) (arguments : Args) (ctx : DispatchCtx)
    (sys : SysState) (world : World) : Except PyExc (String × SysState) :=
  if name = "get_animations" then
    .ok ("Available animations: " ++ String.intercalate ", " ctx.animation_names, sys)
  else if name = "get_backgrounds" then
    .ok ((if ¬ ctx.background_names.isEmpty then
            "Available backgrounds: " ++ String.intercalate ", " ctx.background_names
          else "No backgrounds available."), sys)
  else if name = "play_animation" then
    let anim_name := argStr arguments "name"
    if anim_name ∈ ctx.animation_names then
      .ok (s!"Now playing animation: {anim_name}", sys)
    else
      .ok (s!"Unknown animation: {anim_name}. Available: "
        ++ String.intercalate ", " ctx.animation_names, sys)
  else if name = "memory_list" then .ok (handle_memory_list sys.memories, sys)
  else if name = "memory_create" then
    let r := handle_memory_create sys.memories arguments
    .ok (r.fst, { sys with memories := r.snd })
  else if name = "memory_read" then .ok (handle_memory_read sys.memories arguments, sys)
  else if name = "memory_edit" then
    let r := handle_memory_edit sys.memories arguments
    .ok (r.fst, { sys with memories := r.snd })
  else if name = "memory_delete" then
    let r := handle_memory_delete sys.memories arguments
    .ok (r.fst, { sys with memories := r.snd })
  else if name = "memory_patch" then
    let r := handle_memory_patch sys.memories arguments
    .ok (r.fst, { sys with memories := r.snd })
  else if name = "state_set" then
    let r := handle_state_set sys.stateStore arguments world.nowIso
    .ok (r.fst, { sys with stateStore := r.snd })
  else if name = "state_get" then .ok (handle_state_get sys.stateStore arguments, sys)
  else if name = "state_list" then .ok (handle_state_list sys.stateStore, sys)
  else if name = "state_check_time" then
    .ok (handle_state_check_time sys.stateStore arguments
      world.parseIsoEpoch world.nowEpoch, sys)
  else if name = "set_background" ∧ ctx.hasSetBackground
      ∧ ¬ ctx.background_names.isEmpty then
    let bg_name := argStr arguments "name"
    if bg_name ∈ ctx.background_names then
      .ok (s!"Background changed to: {bg_name}", sys)
    else
      .ok (s!"Unknown background: {bg_name}. Available: "
        ++ String.intercalate ", " ctx.background_names, sys)
  else if name = "web_search" then
    (handle_web_search arguments ctx.braveKey world).map (fun r => (r, sys))
  else if name = "run_command" then
    .ok ((handle_run_command arguments
      (world.runProc (pyStrip (argStr arguments "command")))).fst, sys)
  else if name = "vector_save" then
    .ok (handle_vector_save sys arguments)
  else if name = "vector_search" then
    (handle_vector_search sys arguments world).map (fun r => (r, sys))
  else if name = "vector_delete" then
    let r := handle_vector_delete sys arguments
    .ok r
  else if name = "vector_list" then .ok (handle_vector_list sys, sys)
  else if name = "mcp_server_create" then
    .ok (handle_mcp_server_create arguments sys world false)
  else if name = "mcp_server_edit" then
    .ok (handle_mcp_server_edit arguments sys world)
  else if name = "mcp_server_delete" then
    .ok (handle_mcp_server_delete arguments sys)
  else if name = "mcp_server_list" then
    .ok (handle_mcp_server_list sys, sys)
  else if name = "mcp_server_start" then
    .ok (handle_mcp_server_start arguments sys world)
  else if name = "mcp_server_stop" then
    .ok (handle_mcp_server_stop arguments sys)
  else if name = "mcp_server_logs" then
    (handle_mcp_server_logs arguments sys world).map (fun r => (r, sys))
  else if has_tool sys.manager name then
    .ok (call_tool sys.manager world name arguments, sys)
  else .ok (s!"Unknown tool: {name}", sys)

/-! ## `app/chat.py` — the conversation loop of `ChatHandler.send_message`

The OpenAI client is external: `respond i` is the choice returned by the
`i`-th `chat.completions.create` call of this request.  `dispatchFn` is the
awaited `_handle_tool_call` and `parseArgs` is `json.loads` on the tool
call's `function.arguments` (`none` = `JSONDecodeError`, replaced by `{}`).
The per-session `asyncio.Lock` serialises appends on the single-threaded
event loop and has no observable effect on this sequential path. -/

/-- One requested tool call inside a model response. -/
structure ToolCallReq where
  id : String
  fnName : String
  /-- Raw JSON text of `function.arguments`. -/
  fnArguments : String
  deriving Repr, DecidableEq

/-- The first choice of a chat-completion response. -/
structure ModelChoice where
  finishReason : String
  toolCalls : List ToolCallReq
  content : Option String
  deriving Repr, DecidableEq

/-- A message of the in-flight context / session history. -/
inductive ChatMsg where
  | system (content : String)
  | user (content : String)
  | assistant (content : String)
  /-- `choice.message.model_dump()` of a tool-call response. -/
  | assistantToolCalls (calls : List ToolCallReq)
  | tool (tool_call_id : String) (content : String)
  deriving Repr

/-- `MAX_TOOL_ROUNDS`. -/
def MAX_TOOL_ROUNDS : Nat := 10

/-- The fixed fallback reply after round-limit exhaustion. -/
def FALLBACK_REPLY : String :=
  "I'm having trouble processing that request. Please try again."

/-- The model response requests tool calls
(`choice.finish_reason == "tool_calls" or choice.message.tool_calls`). -/
def isToolCallChoice (c : ModelChoice) : Prop :=
  c.finishReason = "tool_calls" ∨ c.toolCalls ≠ []

instance (c : ModelChoice) : Decidable (isToolCallChoice c) :=
  inferInstanceAs (Decidable (_ ∨ _))

/-- The `for _ in range(MAX_TOOL_ROUNDS)` body: one model call per iteration;
a tool-call response appends the assistant dump and one tool-result message
per requested call, then continues; a plain-text response ends the loop.
Returns (reply, number of model calls made, text appended to the persisted
history — `none` when the loop exhausted its rounds). -/
def sendRounds (respond : Nat → ModelChoice) (dispatchFn : String → Args → String)
    (parseArgs : String → Option Args) :
    Nat → Nat → List ChatMsg → String × Nat × Option String
  | 0, _, _ => (FALLBACK_REPLY, 0, none)
  | fuel + 1, i, messages =>
      let choice := respond i
      if choice.finishReason = "tool_calls" ∨ choice.toolCalls ≠ [] then
        let messages := messages ++ [ChatMsg.assistantToolCalls choice.toolCalls]
        let messages := choice.toolCalls.foldl (fun ms tc =>
          let fn_args := (parseArgs tc.fnArguments).getD []
          ms ++ [ChatMsg.tool tc.id (dispatchFn tc.fnName fn_args)]) messages
        let r := sendRounds respond dispatchFn parseArgs fuel (i + 1) messages
        (r.fst, r.snd.fst + 1, r.snd.snd)
      else
        let assistant_text := choice.content.getD ""
        (assistant_text, 1, some assistant_text)

/-- `ChatHandler.send_message`: append the user message to the persisted
history, build the in-flight context (system soul + history), run up to
`MAX_TOOL_ROUNDS` rounds.  Returns (reply, model calls made, persisted
history after the call). -/
def send_message (respond : Nat → ModelChoice) (dispatchFn : String → Args → String)
    (parseArgs : String → Option Args) (soul : String) (history : List ChatMsg)
    (user_text : String) : String × Nat × List ChatMsg :=
  let history := history ++ [ChatMsg.user user_text]
  let messages := ChatMsg.system soul :: history
  let r := sendRounds respond dispatchFn parseArgs MAX_TOOL_ROUNDS 0 messages
  (r.fst, r.snd.fst,
   match r.snd.snd with
   | some t => history ++ [ChatMsg.assistant t]
   | none => history)

/-! ## Session persistence

Modelled from the spec: the session-persistence layer of `ChatHandler`
(`load_session`, `list_sessions`, the per-mutation session file rewrite) is
not among the source files — only its callers in `app/server.py` and
`app/routes/chat.py` are — so the definitions below follow the spec's words:
a persisted session file is the JSON object
`{id, title, started_at (ISO-8601 with offset), messages}`, with messages
role-tagged `user` / `assistant` / `tool_call` (audit entry `{name,
arguments}`); files are keyed by the session id, and loading takes only the
filename component of a requested id, rejecting path traversal. -/

/-- Modelled from the spec: a persisted session message
(`{role, content|name|arguments, ...}`; the `tool` role is not persisted as
such, only the `tool_call` audit form). -/
inductive SessMsg where
  | userMsg (content : String)
  | assistantMsg (content : String)
  | toolCallAudit (name : String) (arguments : JVal)
  deriving Repr

/-- Modelled from the spec: one session. -/
structure Session where
  id : String
  title : String
  started_at : String
  messages : List SessMsg

/-- Modelled from the spec: JSON encoding of one persisted message. -/
def encodeMsg : SessMsg → JVal
  | .userMsg c => .obj [("role", .str "user"), ("content", .str c)]
  | .assistantMsg c => .obj [("role", .str "assistant"), ("content", .str c)]
  | .toolCallAudit n a =>
      .obj [("role", .str "tool_call"), ("name", .str n), ("arguments", a)]

/-- Decoding of one persisted message. -/
def decodeMsg (v : JVal) : Option SessMsg :=
  match v with
  | .obj fields =>
      match alistFind fields "role" with
      | some (.str "user") =>
          match alistFind fields "content" with
          | some (.str c) => some (.userMsg c)
          | _ => none
      | some (.str "assistant") =>
          match alistFind fields "content" with
          | some (.str c) => some (.assistantMsg c)
          | _ => none
      | some (.str "tool_call") =>
          match alistFind fields "name", alistFind fields "arguments" with
          | some (.str n), some a => some (.toolCallAudit n a)
          | _, _ => none
      | _ => none
  | _ => none

/-- Decode an ordered message array. -/
def decodeMsgList : List JVal → Option (List SessMsg)
  | [] => some []
  | v :: rest =>
      match decodeMsg v, decodeMsgList rest with
      | some m, some ms => some (m :: ms)
      | _, _ => none

/-- Modelled from the spec: the session file
`{id, title, started_at, messages}`. -/
def encodeSession (s : Session) : JVal :=
  .obj [("id", .str s.id), ("title", .str s.title),
        ("started_at", .str s.started_at),
        ("messages", .arr (s.messages.map encodeMsg))]

/-- Parse a session file back. -/
def decodeSession (v : JVal) : Option Session :=
  match v with
  | .obj fields =>
      match alistFind fields "id", alistFind fields "title",
          alistFind fields "started_at", alistFind fields "messages" with
      | some (.str i), some (.str t), some (.str d), some (.arr ms) =>
          match decodeMsgList ms with
          | some msgs => some ⟨i, t, d, msgs⟩
          | none => none
      | _, _, _, _ => none
  | _ => none

/-- The session directory: file name (the session id) ↦ parsed JSON file
content (serialising a JSON value to text and parsing it back is the
identity, so the text layer is not re-embedded). -/
def SessionStore : Type := List (String × JVal)

/-- Modelled from the spec: rewrite the session's backing file. -/
def save_session (store : SessionStore) (s : Session) : SessionStore :=
  alistInsert store s.id (encodeSession s)

/-- Modelled from the spec: load a session by id, taking only the filename
component of the requested id (path-traversal rejection). -/
def load_session (store : SessionStore) (requestedId : String) :
    Except String Session :=
  let sid := pathlibName requestedId
  match alistFind store sid with
  | none => .error s!"Session '{sid}' not found"
  | some v =>
      match decodeSession v with
      | some s => .ok s
      | none => .error s!"Session '{sid}' is malformed"

/-! ## Concrete scenario states used by the claim theorems -/

/-- Oracle world for the C4 scenarios: every server declares one tool `t`. -/
def c4World : World :=
  { connectTools := fun _ _ => .ok [⟨"t", "", JVal.null⟩],
    runProc := fun _ => ⟨0, "", 0⟩,
    braveText := fun _ _ => "",
    vectorQueryText := fun _ _ => "",
    aiServerLogs := fun _ => [],
    mcpCallText := fun _ _ => "",
    parseCode := fun _ => .error (1, "unavailable"),
    nowIso := "1970-01-01T00:00:00+00:00",
    nowEpoch := 0,
    parseIsoEpoch := fun _ => none }

/-- A manager with nothing registered. -/
def emptyMgr : MCPManagerState := ⟨[], [], [], [], []⟩

/-- States of the C4 counterexample: `A` starts (tool `t`), then `B` starts
(same tool name `t`, overwriting the owner), then `A` is stopped. -/
def c4Files : List (String × String) := [("A", "c"), ("B", "c")]

/-- After starting `A`. -/
def c4St1 : MCPManagerState :=
  (start_ai_server emptyMgr c4World "A" c4Files false).snd

/-- After also starting `B`. -/
def c4St2 : MCPManagerState :=
  (start_ai_server c4St1 c4World "B" c4Files false).snd

/-- After then stopping `A`. -/
def c4St3 : MCPManagerState :=
  (stop_ai_server c4St2 "A").snd

/-- A system whose only live AI session is `srv`. -/
def c8SysRunning : SysState :=
  { memories := [], stateStore := [], disk := ⟨[], [], []⟩,
    manager := ⟨[], [], ["srv"], [], []⟩, vector := none }

/-- A system with no live AI session. -/
def c8SysStopped : SysState :=
  { memories := [], stateStore := [], disk := ⟨[], [], []⟩,
    manager := emptyMgr, vector := none }

/-- Oracle world for the C8 witness (never consulted on the no-op paths). -/
def c8World : World :=
  { connectTools := fun _ _ => .error "unused",
    runProc := fun _ => ⟨0, "", 0⟩,
    braveText := fun _ _ => "",
    vectorQueryText := fun _ _ => "",
    aiServerLogs := fun _ => [],
    mcpCallText := fun _ _ => "",
    parseCode := fun _ => .error (1, "unavailable"),
    nowIso := "1970-01-01T00:00:00+00:00",
    nowEpoch := 0,
    parseIsoEpoch := fun _ => none }

/-- Oracle world for the C2 failing input (none of its fields is consulted on
that path). -/
def c2World : World :=
  { connectTools := fun _ _ => .error "unused",
    runProc := fun _ => ⟨0, "", 0⟩,
    braveText := fun _ _ => "",
    vectorQueryText := fun _ _ => "",
    aiServerLogs := fun _ => [],
    mcpCallText := fun _ _ => "",
    parseCode := fun _ => .error (1, "unavailable"),
    nowIso := "1970-01-01T00:00:00+00:00",
    nowEpoch := 0,
    parseIsoEpoch := fun _ => none }

/-- An idle system state for the C2 failing input. -/
def c2Sys : SysState :=
  { memories := [], stateStore := [], disk := ⟨[], [], []⟩,
    manager := ⟨[], [], [], [], []⟩, vector := none }

/-- The C2 dispatcher context. -/
def c2Ctx : DispatchCtx :=
  { animation_names := [], background_names := [], hasSetBackground := false,
    braveKey := "" }

/-- A system whose manager table holds one MCP tool `ghost_tool` owned by a
connected static server `ext`. -/
def c2SysTool : SysState :=
  { memories := [], stateStore := [], disk := ⟨[], [], []⟩,
    manager := ⟨["ext"], [("ghost_tool", ("ext", ⟨"ghost_tool", "", JVal.null⟩))],
                [], [], []⟩,
    vector := none }

/-- Oracle world whose MCP call routing is observable. -/
def c2WorldTool : World :=
  { connectTools := fun _ _ => .error "unused",
    runProc := fun _ => ⟨0, "", 0⟩,
    braveText := fun _ _ => "",
    vectorQueryText := fun _ _ => "",
    aiServerLogs := fun _ => [],
    mcpCallText := fun n _ => "mcp result for " ++ n,
    parseCode := fun _ => .error (1, "unavailable"),
    nowIso := "1970-01-01T00:00:00+00:00",
    nowEpoch := 0,
    parseIsoEpoch := fun _ => none }

/-! # THEOREMS

Everything below is proof; the embedding is complete above. -/

/-! ## Lemmas about the string and walk primitives -/

theorem splitSepFuel_congr (s0 : Char) (srest : List Char) :
    ∀ (f1 : Nat) (l acc : List Char) (f2 : Nat),
      l.length ≤ f1 → l.length ≤ f2 →
      splitSepFuel s0 srest f1 l acc = splitSepFuel s0 srest f2 l acc := by
  intro f1
  induction f1 with
  | zero =>
      intro l acc f2 h1 _
      cases l with
      | nil => cases f2 <;> simp [splitSepFuel]
      | cons c rest => simp at h1
  | succ f ih =>
      intro l acc f2 h1 h2
      cases l with
      | nil => cases f2 <;> simp [splitSepFuel]
      | cons c rest =>
          cases f2 with
          | zero => simp at h2
          | succ f2' =>
              simp only [splitSepFuel]
              have hd : (rest.drop srest.length).length ≤ rest.length := by
                simp [List.length_drop]
              simp only [List.length_cons] at h1 h2
              by_cases hcut : c = s0 ∧ listStarts srest rest
              · simp only [if_pos hcut]
                rw [ih (rest.drop srest.length) [] f2' (by omega) (by omega)]
              · simp only [if_neg hcut]
                rw [ih rest (c :: acc) f2' (by omega) (by omega)]

theorem PyNode.listSize_append (a b : List PyNode) :
    PyNode.listSize (a ++ b) = PyNode.listSize a + PyNode.listSize b := by
  induction a with
  | nil => simp [listSize]
  | cons n l ih => simp [listSize, ih]; omega

theorem PyNode.nodeSize_pos (n : PyNode) : 0 < PyNode.nodeSize n := by
  cases n <;> simp [nodeSize]

theorem PyNode.listSize_children_lt (n : PyNode) : PyNode.listSize n.children < PyNode.nodeSize n := by
  cases n <;> simp [children, nodeSize, listSize]

open PyNode in
theorem walkFuel_congr : ∀ (f1 : Nat) (q : List PyNode) (f2 : Nat),
    listSize q ≤ f1 → listSize q ≤ f2 → walkFuel f1 q = walkFuel f2 q := by
  intro f1
  induction f1 with
  | zero =>
      intro q f2 h1 _
      cases q with
      | nil => cases f2 <;> simp [walkFuel]
      | cons n rest =>
          exfalso
          have := nodeSize_pos n
          simp [listSize] at h1
          omega
  | succ f ih =>
      intro q f2 h1 h2
      cases q with
      | nil => cases f2 <;> simp [walkFuel]
      | cons n rest =>
          have hpos := nodeSize_pos n
          have hsz : listSize (n :: rest) = nodeSize n + listSize rest := rfl
          cases f2 with
          | zero => omega
          | succ f2' =>
              simp only [walkFuel]
              have hrec : listSize (rest ++ n.children)
                  = listSize rest + listSize n.children := listSize_append ..
              have hlt := listSize_children_lt n
              have := ih (rest ++ n.children) f2' (by omega) (by omega)
              rw [this]

open PyNode in
/-- The BFS recurrence of `ast.walk`: visiting the head of the queue appends
its children to the back. -/
theorem walk_cons (n : PyNode) (rest : List PyNode) :
    walk (n :: rest) = n :: walk (rest ++ n.children) := by
  have hpos := nodeSize_pos n
  have hsz : listSize (n :: rest) = nodeSize n + listSize rest := rfl
  have hrec : listSize (rest ++ n.children)
      = listSize rest + listSize n.children := listSize_append ..
  have hlt := listSize_children_lt n
  unfold walk
  rw [hsz]
  have hpos' : ∃ k, nodeSize n + listSize rest = k + 1 := ⟨nodeSize n + listSize rest - 1, by omega⟩
  obtain ⟨k, hk⟩ := hpos'
  rw [hk]
  simp only [walkFuel]
  rw [walkFuel_congr k (rest ++ n.children) (listSize (rest ++ n.children)) (by omega) (by omega)]

/-! Helper lemmas about the accumulated error list. -/

theorem foldl_append_eq_flatMap (f : PyNode → List String) :
    ∀ (l : List PyNode) (acc : List String),
      l.foldl (fun acc n => acc ++ f n) acc = acc ++ l.flatMap f := by
  intro l
  induction l with
  | nil => intro acc; simp
  | cons n t ih => intro acc; simp [List.foldl_cons, ih]

/-- The full error list of `validate_code` as a flat map over the walk. -/
theorem validate_errors_eq (tree : PyNode) (b : Bool) :
    (walk [tree]).foldl (fun acc n => acc ++ nodeErrors b n) []
      = (walk [tree]).flatMap (nodeErrors b) := by
  simpa using foldl_append_eq_flatMap (nodeErrors b) (walk [tree]) []

theorem validate_fst_true_iff (tree : PyNode) (b : Bool) :
    (validate_code tree b).fst = true ↔ (walk [tree]).flatMap (nodeErrors b) = [] := by
  unfold validate_code
  rw [validate_errors_eq]
  by_cases h : (walk [tree]).flatMap (nodeErrors b) = [] <;> simp [h]

theorem flatMap_ne_nil_of_mem {α : Type} {n : α} {l : List α} (f : α → List String)
    (hm : n ∈ l) (hf : f n ≠ []) : l.flatMap f ≠ [] := by
  intro hnil
  rw [List.flatMap_eq_nil_iff] at hnil
  exact hf (hnil n hm)

theorem checkModuleErrors_mono {lineno : Nat} {m : String}
    (h : checkModuleErrors false lineno m = []) :
    checkModuleErrors true lineno m = [] := by
  unfold checkModuleErrors at *
  by_cases h1 : ALLOWED_MODULES.contains ((pySplitOn m ".").headD "") <;>
    by_cases h2 : NETWORK_MODULES.contains ((pySplitOn m ".").headD "") <;>
      simp_all

theorem nodeErrors_mono {n : PyNode} (h : nodeErrors false n = []) :
    nodeErrors true n = [] := by
  cases n with
  | importStmt lineno names =>
      simp only [nodeErrors, List.flatMap_eq_nil_iff] at *
      intro m hm
      exact checkModuleErrors_mono (h m hm)
  | importFrom lineno m? =>
      cases m? with
      | none => simp [nodeErrors]
      | some m =>
          simp only [nodeErrors] at *
          by_cases hm : m = "" <;> simp_all
          exact checkModuleErrors_mono h
  | _ => simp only [nodeErrors] at h ⊢ <;> exact h

/-- Any walked node with a non-empty error contribution makes `validate_code`
reject. -/
theorem validate_fst_false_of_node {tree n : PyNode} (b : Bool)
    (hn : n ∈ walk [tree]) (he : nodeErrors b n ≠ []) :
    (validate_code tree b).fst = false := by
  cases hfst : (validate_code tree b).fst
  · rfl
  · exfalso
    have hnil := (validate_fst_true_iff tree b).mp hfst
    rw [List.flatMap_eq_nil_iff] at hnil
    exact he (hnil n hn)

theorem checkModuleErrors_socket {lineno : Nat} {m : String}
    (hb : (pySplitOn m ".").headD "" = "socket") :
    checkModuleErrors false lineno m ≠ [] := by
  have hb' : (pySplitOn m ".").head?.getD "" = "socket" := by simpa using hb
  have h1 : ¬ ("socket" ∈ ALLOWED_MODULES) := by decide
  have h2 : "socket" ∈ NETWORK_MODULES := by decide
  simp [checkModuleErrors, hb', h1, h2]

theorem checkModuleErrors_net_ok {lineno : Nat} {m : String}
    (h : (pySplitOn m ".").headD "" ∈ ALLOWED_MODULES ++ NETWORK_MODULES) :
    checkModuleErrors true lineno m = [] := by
  have h' : (pySplitOn m ".").head?.getD "" ∈ ALLOWED_MODULES ++ NETWORK_MODULES := by
    simpa using h
  rcases List.mem_append.mp h' with hA | hN
  · simp [checkModuleErrors, hA]
  · by_cases hA' : (pySplitOn m ".").head?.getD "" ∈ ALLOWED_MODULES <;>
      simp [checkModuleErrors, hA', hN]

/-- C5 — the network flag gates exactly the network-module imports, and the
dangerous-call / dangerous-attribute checks are independent of it:
(1) a tree with an `import socket` statement is rejected when
`allow_network=False`; (2) a tree all of whose imports stay within the
allowed-or-network module set and which has no dangerous call and no
dangerous attribute access — e.g. the identical `import socket` code — is
accepted when `allow_network=True`; (3,4) a call to `eval(...)` or an access
to `__globals__` is rejected for both values of the flag. -/
theorem validate_code_network_flag_and_dangerous (t : PyNode) :
    (hasImportBase "socket" t = true → (validate_code t false).fst = false)
    ∧ (importsWithin (ALLOWED_MODULES ++ NETWORK_MODULES) t = true →
        noDangerousCalls t = true → noDangerousAttrs t = true →
        (validate_code t true).fst = true)
    ∧ (∀ b, hasCallTo "eval" t = true → (validate_code t b).fst = false)
    ∧ (∀ b, hasAttr "__globals__" t = true → (validate_code t b).fst = false) := by
  refine ⟨?_, ?_, ?_, ?_⟩
  · intro h
    rw [hasImportBase, List.any_eq_true] at h
    obtain ⟨n, hn, hp⟩ := h
    cases n with
    | importStmt lineno names =>
        obtain ⟨m, hm, hbase⟩ := List.any_eq_true.mp hp
        apply validate_fst_false_of_node false hn
        simp only [nodeErrors]
        exact flatMap_ne_nil_of_mem _ hm
          (checkModuleErrors_socket (of_decide_eq_true hbase))
    | module body => simp at hp
    | importFrom lineno m? => simp at hp
    | exprStmt lineno v => simp at hp
    | callExpr lineno f args => simp at hp
    | attrAccess lineno v a => simp at hp
    | nameExpr lineno i => simp at hp
    | otherStmt lineno => simp at hp
  · intro h1 h2 h3
    rw [validate_fst_true_iff, List.flatMap_eq_nil_iff]
    intro n hn
    rw [importsWithin, List.all_eq_true] at h1
    rw [noDangerousCalls, List.all_eq_true] at h2
    rw [noDangerousAttrs, List.all_eq_true] at h3
    have p1 := h1 n hn
    have p2 := h2 n hn
    have p3 := h3 n hn
    cases n with
    | importStmt lineno names =>
        simp only [nodeErrors]
        rw [List.flatMap_eq_nil_iff]
        intro m hm
        have pm := List.all_eq_true.mp p1 m hm
        exact checkModuleErrors_net_ok (of_decide_eq_true pm)
    | importFrom lineno m? =>
        cases m? with
        | none => simp [nodeErrors]
        | some m =>
            simp only [nodeErrors]
            by_cases hm : m = ""
            · simp [hm]
            · rcases of_decide_eq_true p1 with hm' | hmem
              · exact absurd hm' hm
              · simp only [if_pos hm]
                exact checkModuleErrors_net_ok hmem
    | callExpr lineno f args =>
        simp only [nodeErrors]
        have p2' : (match callTargetName f with
            | some nm => decide (nm ∉ DANGEROUS_CALLS)
            | none => true) = true := p2
        cases hc : callTargetName f with
        | none => simp
        | some nm =>
            rw [hc] at p2'
            have : nm ∉ DANGEROUS_CALLS := of_decide_eq_true p2'
            simp [this]
    | attrAccess lineno v a =>
        have : a ∉ DANGEROUS_ATTRS := of_decide_eq_true p3
        simp [nodeErrors, this]
    | module body => simp [nodeErrors]
    | exprStmt lineno v => simp [nodeErrors]
    | nameExpr lineno i => simp [nodeErrors]
    | otherStmt lineno => simp [nodeErrors]
  · intro b h
    rw [hasCallTo, List.any_eq_true] at h
    obtain ⟨n, hn, hp⟩ := h
    cases n with
    | callExpr lineno f args =>
        have hc : callTargetName f = some "eval" := of_decide_eq_true hp
        apply validate_fst_false_of_node b hn
        have hd : "eval" ∈ DANGEROUS_CALLS := by decide
        simp [nodeErrors, hc, hd]
    | module body => simp at hp
    | importStmt lineno names => simp at hp
    | importFrom lineno m? => simp at hp
    | exprStmt lineno v => simp at hp
    | attrAccess lineno v a => simp at hp
    | nameExpr lineno i => simp at hp
    | otherStmt lineno => simp at hp
  · intro b h
    rw [hasAttr, List.any_eq_true] at h
    obtain ⟨n, hn, hp⟩ := h
    cases n with
    | attrAccess lineno v a =>
        have ha : a = "__globals__" := of_decide_eq_true hp
        apply validate_fst_false_of_node b hn
        have hd : "__globals__" ∈ DANGEROUS_ATTRS := by decide
        simp [nodeErrors, ha, hd]
    | module body => simp at hp
    | importStmt lineno names => simp at hp
    | importFrom lineno m? => simp at hp
    | exprStmt lineno v => simp at hp
    | callExpr lineno f args => simp at hp
    | nameExpr lineno i => simp at hp
    | otherStmt lineno => simp at hp

/-- Witness for C5 at concrete programs: `import socket` alone flips with the
flag; an `eval(x)` call and an `x.__globals__` access are rejected under both
flag values. -/
theorem validate_code_network_flag_and_dangerous_witness :
    (validate_code (PyNode.module [PyNode.importStmt 1 ["socket"]]) false).fst = false
    ∧ (validate_code (PyNode.module [PyNode.importStmt 1 ["socket"]]) true).fst = true
    ∧ (validate_code (PyNode.module [PyNode.exprStmt 1
        (PyNode.callExpr 1 (PyNode.nameExpr 1 "eval") [PyNode.nameExpr 1 "x"])]) false).fst = false
    ∧ (validate_code (PyNode.module [PyNode.exprStmt 1
        (PyNode.attrAccess 1 (PyNode.nameExpr 1 "x") "__globals__")]) true).fst = false :=
  ⟨(validate_code_network_flag_and_dangerous _).1 (by decide),
   (validate_code_network_flag_and_dangerous _).2.1 (by decide) (by decide) (by decide),
   (validate_code_network_flag_and_dangerous _).2.2.1 false (by decide),
   (validate_code_network_flag_and_dangerous _).2.2.2 true (by decide)⟩

/-- C10 — `validate_code` is monotone in the network flag: granting network
access never rejects a program accepted without it. -/
theorem validate_code_monotone_network (tree : PyNode)
    (h : (validate_code tree false).fst = true) :
    (validate_code tree true).fst = true := by
  rw [validate_fst_true_iff] at *
  rw [List.flatMap_eq_nil_iff] at *
  intro n hn
  exact nodeErrors_mono (h n hn)

/-- Witness for C10 at a concrete accepted program. -/
theorem validate_code_monotone_network_witness :
    (validate_code (PyNode.module [PyNode.importStmt 1 ["json"]]) false).fst = true
    ∧ (validate_code (PyNode.module [PyNode.importStmt 1 ["json"]]) true).fst = true :=
  ⟨by decide, validate_code_monotone_network _ (by decide)⟩

/-! ## Lemmas about the association-list store -/

theorem alistFind_insert_self {β : Type} (l : List (String × β)) (k : String) (v : β) :
    alistFind (alistInsert l k v) k = some v := by
  simp [alistFind, alistInsert]

theorem find?_filter_ne {β : Type} (t : List (String × β)) (k k' : String) (h : k' ≠ k) :
    (t.filter (fun kv => kv.fst ≠ k)).find? (fun kv => kv.fst = k')
      = t.find? (fun kv => kv.fst = k') := by
  induction t with
  | nil => rfl
  | cons kv t ih =>
      by_cases hk' : kv.fst = k'
      · have hkk : (kv.fst ≠ k) := by rw [hk']; exact h
        rw [List.filter_cons_of_pos (by simpa using hkk)]
        rw [List.find?_cons_of_pos _ (by simpa using hk'),
          List.find?_cons_of_pos _ (by simpa using hk')]
      · by_cases hkk : kv.fst = k
        · rw [List.filter_cons_of_neg (by simpa using hkk), ih,
            List.find?_cons_of_neg _ (by simpa using hk')]
        · rw [List.filter_cons_of_pos (by simpa using hkk),
            List.find?_cons_of_neg _ (by simpa using hk'),
            List.find?_cons_of_neg _ (by simpa using hk'), ih]

theorem alistFind_insert_ne {β : Type} (l : List (String × β)) (k k' : String) (v : β)
    (h : k' ≠ k) : alistFind (alistInsert l k v) k' = alistFind l k' := by
  unfold alistFind alistInsert
  rw [List.find?_cons_of_neg _ (by simpa using fun hh => h hh.symm)]
  rw [find?_filter_ne l k k' h]

/-! ## C9 — memory create/read round-trip -/

/-- C9 — `memory_create` on a fresh filename succeeds, and `memory_read` of
the same filename then returns exactly the written content; `memory_create`
on an existing filename returns the already-exists message and leaves the
store unchanged. -/
theorem memory_create_then_read (mem : Memories) (filename content : String)
    (hfn : filename ≠ "") :
    (alistFind mem (safe_filename filename) = none →
      (handle_memory_create mem
          [("filename", JVal.str filename), ("content", JVal.str content)]).fst
        = s!"Memory '{filename}' created."
      ∧ handle_memory_read
          (handle_memory_create mem
            [("filename", JVal.str filename), ("content", JVal.str content)]).snd
          [("filename", JVal.str filename)] = content)
    ∧ (∀ c0, alistFind mem (safe_filename filename) = some c0 →
      (handle_memory_create mem
          [("filename", JVal.str filename), ("content", JVal.str content)]).fst
        = s!"Memory '{filename}' already exists. Use memory_edit to update it."
      ∧ (handle_memory_create mem
          [("filename", JVal.str filename), ("content", JVal.str content)]).snd = mem) := by
  have ha : argStr [("filename", JVal.str filename), ("content", JVal.str content)]
      "filename" = filename := rfl
  have hb : argStr [("filename", JVal.str filename), ("content", JVal.str content)]
      "content" = content := rfl
  have ha2 : argStr [("filename", JVal.str filename)] "filename" = filename := rfl
  constructor
  · intro hnone
    have hcreate : handle_memory_create mem
        [("filename", JVal.str filename), ("content", JVal.str content)]
        = (s!"Memory '{filename}' created.",
           alistInsert mem (safe_filename filename) content) := by
      simp [handle_memory_create, ha, hb, hfn, hnone]
    constructor
    · rw [hcreate]
    · rw [hcreate]
      simp [handle_memory_read, ha2, hfn, alistFind_insert_self]
  · intro c0 hsome
    constructor <;> simp [handle_memory_create, ha, hb, hfn, hsome]

/-- Witness for C9 at a concrete store and file. -/
theorem memory_create_then_read_witness :
    (handle_memory_create []
        [("filename", JVal.str "notes"), ("content", JVal.str "hello")]).fst
      = "Memory 'notes' created."
    ∧ handle_memory_read
        (handle_memory_create []
          [("filename", JVal.str "notes"), ("content", JVal.str "hello")]).snd
        [("filename", JVal.str "notes")] = "hello" := by
  have h := (memory_create_then_read [] "notes" "hello" (by decide)).1 (by decide)
  exact ⟨by rw [h.1]; decide, h.2⟩

/-! ## C6 — memory patch requires a unique match -/

/-- C6 (amended) — on a file whose content contains `old_string` exactly once,
`memory_patch` replaces that occurrence and reports success; with zero or
two-or-more occurrences it returns an error and leaves the store unchanged;
and re-running the same patch after a success returns the not-found error
provided the patched content no longer contains `old_string` (the unamended
claim drops that proviso and is refuted by
`memory_patch_rerun_counterexample`). -/
theorem memory_patch_exactly_once (mem : Memories) (filename old new : String)
    (hfn : filename ≠ "") (hold : old ≠ "") :
    ∀ content, alistFind mem (safe_filename filename) = some content →
      (pyCount content old = 1 →
        (handle_memory_patch mem
            [("filename", JVal.str filename), ("old_string", JVal.str old),
             ("new_string", JVal.str new)]).fst = s!"Memory '{filename}' patched."
        ∧ (handle_memory_patch mem
            [("filename", JVal.str filename), ("old_string", JVal.str old),
             ("new_string", JVal.str new)]).snd
          = alistInsert mem (safe_filename filename) (pyReplaceFirst content old new))
      ∧ (pyCount content old = 0 →
        (handle_memory_patch mem
            [("filename", JVal.str filename), ("old_string", JVal.str old),
             ("new_string", JVal.str new)]).fst
          = s!"Error: old_string not found in memory '{filename}'."
        ∧ (handle_memory_patch mem
            [("filename", JVal.str filename), ("old_string", JVal.str old),
             ("new_string", JVal.str new)]).snd = mem)
      ∧ (pyCount content old > 1 →
        (handle_memory_patch mem
            [("filename", JVal.str filename), ("old_string", JVal.str old),
             ("new_string", JVal.str new)]).fst
          = s!"Error: old_string matches {pyCount content old} times in memory '{filename}'. Provide a more specific string."
        ∧ (handle_memory_patch mem
            [("filename", JVal.str filename), ("old_string", JVal.str old),
             ("new_string", JVal.str new)]).snd = mem)
      ∧ (pyCount content old = 1 →
          pyCount (pyReplaceFirst content old new) old = 0 →
        (handle_memory_patch
            (handle_memory_patch mem
              [("filename", JVal.str filename), ("old_string", JVal.str old),
               ("new_string", JVal.str new)]).snd
            [("filename", JVal.str filename), ("old_string", JVal.str old),
             ("new_string", JVal.str new)]).fst
          = s!"Error: old_string not found in memory '{filename}'.") := by
  intro content hc
  have ha : argStr [("filename", JVal.str filename), ("old_string", JVal.str old),
      ("new_string", JVal.str new)] "filename" = filename := rfl
  have hb : argStr [("filename", JVal.str filename), ("old_string", JVal.str old),
      ("new_string", JVal.str new)] "old_string" = old := rfl
  have hn : argStr [("filename", JVal.str filename), ("old_string", JVal.str old),
      ("new_string", JVal.str new)] "new_string" = new := rfl
  refine ⟨?_, ?_, ?_, ?_⟩
  · intro h1
    constructor <;> simp [handle_memory_patch, ha, hb, hn, hfn, hold, hc, h1]
  · intro h0
    constructor <;> simp [handle_memory_patch, ha, hb, hn, hfn, hold, hc, h0]
  · intro h2
    have h2' : pyCount content old ≠ 0 := by omega
    have h2'' : pyCount content old ≠ 1 := by omega
    constructor <;> simp [handle_memory_patch, ha, hb, hn, hfn, hold, hc, h2, h2', h2'']
  · intro h1 h0
    have step1 : (handle_memory_patch mem
        [("filename", JVal.str filename), ("old_string", JVal.str old),
         ("new_string", JVal.str new)]).snd
        = alistInsert mem (safe_filename filename) (pyReplaceFirst content old new) := by
      simp [handle_memory_patch, ha, hb, hn, hfn, hold, hc, h1]
    rw [step1]
    simp [handle_memory_patch, ha, hb, hn, hfn, hold, alistFind_insert_self, h0]

/-- Witness for C6 (amended) at a concrete store. -/
theorem memory_patch_exactly_once_witness :
    (handle_memory_patch [("m", "xyz")]
        [("filename", JVal.str "m"), ("old_string", JVal.str "y"),
         ("new_string", JVal.str "q")]).fst = "Memory 'm' patched."
    ∧ (handle_memory_patch
        (handle_memory_patch [("m", "xyz")]
          [("filename", JVal.str "m"), ("old_string", JVal.str "y"),
           ("new_string", JVal.str "q")]).snd
        [("filename", JVal.str "m"), ("old_string", JVal.str "y"),
         ("new_string", JVal.str "q")]).fst
      = "Error: old_string not found in memory 'm'." := by
  have h := memory_patch_exactly_once [("m", "xyz")] "m" "y" "q"
    (by decide) (by decide) "xyz" (by decide)
  exact ⟨by rw [(h.1 (by decide)).1]; decide,
         by rw [h.2.2.2 (by decide) (by decide)]; decide⟩

/-- C6 counterexample — the claim's re-run clause fails as stated: with file
content "ab", patching old_string "ab" to new_string "aab" succeeds, and
re-running the very same patch succeeds again (content "aab" contains "ab"
exactly once), instead of returning the not-found error. -/
theorem memory_patch_rerun_counterexample :
    (handle_memory_patch [("m", "ab")]
        [("filename", JVal.str "m"), ("old_string", JVal.str "ab"),
         ("new_string", JVal.str "aab")]).fst = "Memory 'm' patched."
    ∧ (handle_memory_patch
        (handle_memory_patch [("m", "ab")]
          [("filename", JVal.str "m"), ("old_string", JVal.str "ab"),
           ("new_string", JVal.str "aab")]).snd
        [("filename", JVal.str "m"), ("old_string", JVal.str "ab"),
         ("new_string", JVal.str "aab")]).fst = "Memory 'm' patched."
    ∧ (handle_memory_patch
        (handle_memory_patch [("m", "ab")]
          [("filename", JVal.str "m"), ("old_string", JVal.str "ab"),
           ("new_string", JVal.str "aab")]).snd
        [("filename", JVal.str "m"), ("old_string", JVal.str "ab"),
         ("new_string", JVal.str "aab")]).fst
      ≠ "Error: old_string not found in memory 'm'." :=
  ⟨by decide, by decide, by decide⟩

/-! ## C7 — shell execution timeout and output shaping -/

/-- C7 — `handle_run_command` with a non-empty command: a run past the
30-second limit returns the fixed timeout error and kills the subprocess; a
run within the limit is not killed and returns the stripped output, truncated
to 4000 characters plus a marker when longer, the output itself when
non-empty and within bounds, and the exit-code message when the output is
empty. -/
theorem run_command_timeout_and_output (arguments : Args) (proc : ProcBehavior)
    (hcmd : pyStrip (argStr arguments "command") ≠ "") :
    (proc.runSeconds > 30 →
      handle_run_command arguments proc = ("Error: command timed out after 30 seconds.", true))
    ∧ (proc.runSeconds ≤ 30 →
        (handle_run_command arguments proc).snd = false
        ∧ ((pyStrip proc.stdout).length > 4000 →
            (handle_run_command arguments proc).fst
              = String.mk ((pyStrip proc.stdout).data.take 4000) ++ "\n... (truncated)")
        ∧ ((pyStrip proc.stdout).length ≤ 4000 → pyStrip proc.stdout ≠ "" →
            (handle_run_command arguments proc).fst = pyStrip proc.stdout)
        ∧ (pyStrip proc.stdout = "" →
            (handle_run_command arguments proc).fst
              = s!"Command exited with code {proc.returncode} (no output).")) := by
  constructor
  · intro hslow
    simp [handle_run_command, hcmd, RUN_COMMAND_TIMEOUT, hslow]
  · intro hfast
    have hns : ¬ (proc.runSeconds > RUN_COMMAND_TIMEOUT) := by
      simp [RUN_COMMAND_TIMEOUT]; omega
    refine ⟨?_, ?_, ?_, ?_⟩
    · simp [handle_run_command, hcmd, hns]
    · intro hlong
      have htrunc : String.mk ((pyStrip proc.stdout).data.take 4000)
          ++ "\n... (truncated)" ≠ "" := by
        intro h
        have hd := congrArg String.data h
        rw [String.data_append] at hd
        simp at hd
      simp [handle_run_command, hcmd, hns, RUN_COMMAND_MAX_OUTPUT, hlong, htrunc]
    · intro hshort hne
      have : ¬ ((pyStrip proc.stdout).length > RUN_COMMAND_MAX_OUTPUT) := by
        simp [RUN_COMMAND_MAX_OUTPUT]; omega
      simp [handle_run_command, hcmd, hns, this, hne]
    · intro hempty
      simp [handle_run_command, hcmd, hns, hempty]

/-! ## Lemmas about the manager's tool table -/

theorem alistFind_erase_self {β : Type} (l : List (String × β)) (k : String) :
    alistFind (alistErase l k) k = none := by
  unfold alistFind alistErase
  induction l with
  | nil => rfl
  | cons kv t ih =>
      by_cases hk : kv.fst = k
      · rw [List.filter_cons_of_neg (by simpa using hk)]
        exact ih
      · rw [List.filter_cons_of_pos (by simpa using hk),
          List.find?_cons_of_neg _ (by simpa using hk)]
        exact ih

theorem alistFind_erase_ne {β : Type} (l : List (String × β)) (k k' : String)
    (h : k' ≠ k) : alistFind (alistErase l k) k' = alistFind l k' := by
  unfold alistFind alistErase
  rw [find?_filter_ne l k k' h]

theorem alistFind_foldl_erase {β : Type} (names : List String)
    (tbl : List (String × β)) (t : String) :
    alistFind (names.foldl (fun tb n => alistErase tb n) tbl) t
      = if t ∈ names then none else alistFind tbl t := by
  induction names generalizing tbl with
  | nil => simp
  | cons n rest ih =>
      simp only [List.foldl_cons]
      rw [ih]
      by_cases hmem : t ∈ rest
      · simp [hmem]
      · by_cases hn : t = n
        · simp [hmem, hn, alistFind_erase_self]
        · simp [hmem, hn, alistFind_erase_ne _ _ _ hn]

theorem find_foldl_register_not_mem (nm : String) (decls : List ToolInfo)
    (tbl : List (String × String × ToolInfo)) (t : String)
    (h : t ∉ decls.map ToolInfo.name) :
    alistFind (decls.foldl (fun tb d => alistInsert tb d.name (nm, d)) tbl) t
      = alistFind tbl t := by
  induction decls generalizing tbl with
  | nil => rfl
  | cons d rest ih =>
      simp only [List.map_cons, List.mem_cons] at h
      push_neg at h
      simp only [List.foldl_cons]
      rw [ih _ h.2, alistFind_insert_ne _ _ _ _ h.1]

theorem find_foldl_register_mem (nm : String) (decls : List ToolInfo)
    (tbl : List (String × String × ToolInfo)) (t : String)
    (h : t ∈ decls.map ToolInfo.name) :
    ∃ info, alistFind (decls.foldl (fun tb d => alistInsert tb d.name (nm, d)) tbl) t
      = some (nm, info) ∧ info ∈ decls := by
  induction decls generalizing tbl with
  | nil => simp at h
  | cons d rest ih =>
      simp only [List.foldl_cons]
      by_cases hr : t ∈ rest.map ToolInfo.name
      · obtain ⟨info, hf, hm⟩ := ih (alistInsert tbl d.name (nm, d)) hr
        exact ⟨info, hf, List.mem_cons_of_mem _ hm⟩
      · have ht : t = d.name := by
          simp only [List.map_cons, List.mem_cons] at h
          tauto
        rw [find_foldl_register_not_mem nm rest _ t hr, ht, alistFind_insert_self]
        exact ⟨d, rfl, List.mem_cons_self _ _⟩

/-! ## C4 — tool registration/deregistration bookkeeping -/

/-- C4 (amended) — starting an AI server registers in the flat tool table
exactly the names the server declares at connect time (each mapped to this
server; any other name untouched), records those names per-server, and marks
the session live; stopping a running server reports `true`, drops it from the
session and per-server tables, removes from the tool table exactly the names
recorded for it at its own start, and leaves every table entry whose name is
not among those recorded names unchanged.  (The unamended claim further
asserts the entries of every other running server survive; a same-named tool
of another server is removed too — `ai_server_stop_collision_counterexample`.) -/
theorem ai_server_tool_table :
    (∀ (st : MCPManagerState) (world : World) (name : String)
        (files : List (String × String)) (anet : Bool) (decls : List ToolInfo),
      name ∉ st.aiSessions →
      (alistFind files name).isSome →
      world.connectTools name anet = .ok decls →
      (start_ai_server st world name files anet).fst = .ok (decls.map ToolInfo.name)
      ∧ name ∈ (start_ai_server st world name files anet).snd.aiSessions
      ∧ alistFind (start_ai_server st world name files anet).snd.aiTools name
          = some (decls.map ToolInfo.name)
      ∧ (∀ t, t ∈ decls.map ToolInfo.name →
          ∃ info, alistFind (start_ai_server st world name files anet).snd.tools t
            = some (name, info) ∧ info ∈ decls)
      ∧ (∀ t, t ∉ decls.map ToolInfo.name →
          alistFind (start_ai_server st world name files anet).snd.tools t
            = alistFind st.tools t))
    ∧ (∀ (st : MCPManagerState) (name : String),
      name ∈ st.aiSessions →
      (stop_ai_server st name).fst = true
      ∧ name ∉ (stop_ai_server st name).snd.aiSessions
      ∧ alistFind (stop_ai_server st name).snd.aiTools name = none
      ∧ (∀ t, t ∈ (alistFind st.aiTools name).getD [] →
          alistFind (stop_ai_server st name).snd.tools t = none)
      ∧ (∀ t, t ∉ (alistFind st.aiTools name).getD [] →
          alistFind (stop_ai_server st name).snd.tools t = alistFind st.tools t)) := by
  constructor
  · intro st world name files anet decls hnot hfile hconn
    have hfill : (alistFind files name).isNone = false := by
      cases hval : alistFind files name with
      | none => rw [hval] at hfile; simp at hfile
      | some v => simp
    have hstart : start_ai_server st world name files anet
        = (.ok (decls.map ToolInfo.name),
           { st with
             aiStderr := if name ∈ st.aiStderr then st.aiStderr
               else st.aiStderr ++ [name],
             tools := decls.foldl (fun tbl t => alistInsert tbl t.name (name, t)) st.tools,
             aiSessions := st.aiSessions ++ [name],
             aiTools := alistInsert st.aiTools name (decls.map ToolInfo.name) }) := by
      simp [start_ai_server, hnot, hfill, hconn]
    rw [hstart]
    refine ⟨rfl, by simp, alistFind_insert_self .., ?_, ?_⟩
    · intro t ht
      exact find_foldl_register_mem name decls _ t ht
    · intro t ht
      exact find_foldl_register_not_mem name decls _ t ht
  · intro st name hrun
    have hstop : stop_ai_server st name
        = (true,
           { st with
             tools := ((alistFind st.aiTools name).getD []).foldl
               (fun tbl tn => alistErase tbl tn) st.tools,
             aiSessions := st.aiSessions.filter (fun n => n ≠ name),
             aiTools := alistErase st.aiTools name }) := by
      simp [stop_ai_server, hrun]
    rw [hstop]
    refine ⟨rfl, by simp, alistFind_erase_self .., ?_, ?_⟩
    · intro t ht
      rw [alistFind_foldl_erase]
      simp [ht]
    · intro t ht
      rw [alistFind_foldl_erase]
      simp [ht]

/-- Witness for C4 (amended): one server `X` starting and stopping. -/
theorem ai_server_tool_table_witness :
    (start_ai_server emptyMgr c4World "X" [("X", "code")] false).fst = .ok ["t"]
    ∧ "X" ∈ (start_ai_server emptyMgr c4World "X" [("X", "code")] false).snd.aiSessions
    ∧ (stop_ai_server
        (start_ai_server emptyMgr c4World "X" [("X", "code")] false).snd "X").fst = true
    ∧ alistFind (stop_ai_server
        (start_ai_server emptyMgr c4World "X" [("X", "code")] false).snd "X").snd.tools "t"
      = none := by
  have h1 := ai_server_tool_table.1 emptyMgr c4World "X" [("X", "code")] false
    [⟨"t", "", JVal.null⟩] (by decide) (by decide) rfl
  have h2 := ai_server_tool_table.2
    (start_ai_server emptyMgr c4World "X" [("X", "code")] false).snd "X" h1.2.1
  refine ⟨?_, h1.2.1, h2.1, ?_⟩
  · rw [h1.1]
    rfl
  · refine h2.2.2.2.1 "t" ?_
    rw [h1.2.2.1]
    decide

/-- C4 counterexample — two running servers declare the same tool name `t`
(owned by `B` after `B`'s start); stopping `A` removes `t` from the table even
though `B` is still running, so `B`'s table entry does not survive. -/
theorem ai_server_stop_collision_counterexample :
    (alistFind c4St2.tools "t").map Prod.fst = some "B"
    ∧ "B" ∈ c4St2.aiSessions
    ∧ "B" ∈ c4St3.aiSessions
    ∧ alistFind c4St3.tools "t" = none :=
  ⟨rfl, by decide, by decide, rfl⟩

/-! ## C8 — start/stop no-ops on already-running / not-running servers -/

/-- C8 — for any system state: `mcp_server_start` on a server whose
(sanitised) name is already among the live AI sessions returns the
already-running message and the state unchanged; `mcp_server_stop` on one not
among them returns the not-running message and the state unchanged. -/
theorem mcp_server_start_stop_noop (arguments : Args) (sys : SysState) (world : World)
    (n : String) (hsafe : safeName (argStr arguments "name") = .ok n) :
    (n ∈ sys.manager.aiSessions →
      handle_mcp_server_start arguments sys world
        = (s!"Server '{n}' is already running.", sys))
    ∧ (n ∉ sys.manager.aiSessions →
      handle_mcp_server_stop arguments sys
        = (s!"Server '{n}' is not running.", sys)) := by
  constructor
  · intro h
    simp [handle_mcp_server_start, hsafe, h]
  · intro h
    simp [handle_mcp_server_stop, hsafe, h]

/-- Witness for C8 at concrete states. -/
theorem mcp_server_start_stop_noop_witness :
    handle_mcp_server_start [("name", JVal.str "srv")] c8SysRunning c8World
      = ("Server 'srv' is already running.", c8SysRunning)
    ∧ handle_mcp_server_stop [("name", JVal.str "srv")] c8SysStopped
      = ("Server 'srv' is not running.", c8SysStopped) := by
  constructor
  · have h := (mcp_server_start_stop_noop [("name", JVal.str "srv")] c8SysRunning
      c8World "srv" rfl).1 (by decide)
    refine h.trans ?_
    exact congrArg (fun s => (s, c8SysRunning)) (by decide)
  · have h := (mcp_server_start_stop_noop [("name", JVal.str "srv")] c8SysStopped
      c8World "srv" rfl).2 (by decide)
    refine h.trans ?_
    exact congrArg (fun s => (s, c8SysStopped)) (by decide)

/-- Witness for C7: a 60-second sleep times out and is killed; a fast command
returns its stripped output; a silent command reports its exit code. -/
theorem run_command_timeout_and_output_witness :
    handle_run_command [("command", JVal.str "sleep 60")] ⟨60, "", (-9 : Int)⟩
      = ("Error: command timed out after 30 seconds.", true)
    ∧ (handle_run_command [("command", JVal.str "echo hi")] ⟨1, "hi\n", 0⟩).fst = "hi"
    ∧ (handle_run_command [("command", JVal.str "true")] ⟨1, "", 0⟩).fst
        = "Command exited with code 0 (no output)." := by
  refine ⟨(run_command_timeout_and_output _ _ (by decide)).1 (by decide), ?_, ?_⟩
  · have h := (((run_command_timeout_and_output
      [("command", JVal.str "echo hi")] ⟨1, "hi\n", 0⟩ (by decide)).2
        (by decide)).2.2.1 (by decide) (by decide))
    rw [h]; decide
  · have h := (((run_command_timeout_and_output
      [("command", JVal.str "true")] ⟨1, "", 0⟩ (by decide)).2
        (by decide)).2.2.2 (by decide))
    rw [h]; decide

/-! ## C2 — dispatcher totality (code bug) -/

/-- C2 (code-bug evaluation) — the dispatcher is not total: at tool name
`mcp_server_logs` with `lines = "abc"`, the handler's
`int(arguments.get("lines", 50))` runs outside any `try` and the `ValueError`
propagates out of `handle_tool_call` instead of being rendered as an error
string.  The unknown-name routing itself behaves as claimed: a name absent
from every built-in branch is first checked against the MCP manager's table
(and forwarded when present) and only otherwise answered with the
"Unknown tool" string. -/
theorem handle_tool_call_uncaught_valueerror :
    handle_tool_call "mcp_server_logs"
      [("name", JVal.str "srv"), ("lines", JVal.str "abc")] c2Ctx c2Sys c2World
      = .error ⟨"ValueError", "invalid literal for int() with base 10: 'abc'"⟩
    ∧ handle_tool_call "ghost_tool" [] c2Ctx c2SysTool c2WorldTool
      = .ok ("mcp result for ghost_tool", c2SysTool)
    ∧ handle_tool_call "ghost_tool" [] c2Ctx c2Sys c2World
      = .ok ("Unknown tool: ghost_tool", c2Sys) :=
  ⟨rfl, rfl, rfl⟩

/-! ## C1 — the ten-round circuit breaker -/

theorem sendRounds_all_tool_calls (respond : Nat → ModelChoice)
    (dispatchFn : String → Args → String) (parseArgs : String → Option Args) :
    ∀ (fuel i : Nat) (messages : List ChatMsg),
      (∀ j, j < fuel → isToolCallChoice (respond (i + j))) →
      sendRounds respond dispatchFn parseArgs fuel i messages
        = (FALLBACK_REPLY, fuel, none) := by
  intro fuel
  induction fuel with
  | zero => intro i messages _; rfl
  | succ f ih =>
      intro i messages h
      have h0 : isToolCallChoice (respond i) := by
        have := h 0 (Nat.succ_pos f)
        simpa using this
      have h0' : (respond i).finishReason = "tool_calls" ∨ (respond i).toolCalls ≠ [] := h0
      have hnext : ∀ j, j < f → isToolCallChoice (respond (i + 1 + j)) := by
        intro j hj
        have := h (j + 1) (by omega)
        simpa [Nat.add_assoc, Nat.add_comm 1 j] using this
      simp only [sendRounds, if_pos h0']
      rw [ih (i + 1)
        (((respond i).toolCalls.foldl (fun ms tc =>
            ms ++ [ChatMsg.tool tc.id (dispatchFn tc.fnName
              ((parseArgs tc.fnArguments).getD []))])
          (messages ++ [ChatMsg.assistantToolCalls (respond i).toolCalls])) : List ChatMsg)
        hnext]

/-- C1 — when each of the first 10 model responses of a turn requests tool
calls and none is plain text, `send_message` stops after exactly 10 model
calls (no 11th) and returns the fixed fallback string; no assistant message
is appended to the session. -/
theorem send_message_round_limit (respond : Nat → ModelChoice)
    (dispatchFn : String → Args → String) (parseArgs : String → Option Args)
    (soul : String) (history : List ChatMsg) (user_text : String)
    (h : ∀ i, i < 10 → isToolCallChoice (respond i)) :
    (send_message respond dispatchFn parseArgs soul history user_text).fst
      = "I'm having trouble processing that request. Please try again."
    ∧ (send_message respond dispatchFn parseArgs soul history user_text).snd.fst = 10
    ∧ (send_message respond dispatchFn parseArgs soul history user_text).snd.snd
      = history ++ [ChatMsg.user user_text] := by
  have hrounds := sendRounds_all_tool_calls respond dispatchFn parseArgs
    MAX_TOOL_ROUNDS 0 (ChatMsg.system soul :: (history ++ [ChatMsg.user user_text]))
    (fun j hj => by simpa using h j hj)
  simp only [MAX_TOOL_ROUNDS] at hrounds
  refine ⟨?_, ?_, ?_⟩ <;>
    simp [send_message, MAX_TOOL_ROUNDS, hrounds, FALLBACK_REPLY]

/-- Witness for C1: a model that requests the same tool call every round. -/
theorem send_message_round_limit_witness :
    (send_message
        (fun _ => ⟨"tool_calls", [⟨"call_0", "memory_list", "\x7b\x7d"⟩], none⟩)
        (fun _ _ => "ok") (fun _ => some []) "soul" [] "hello").fst
      = "I'm having trouble processing that request. Please try again."
    ∧ (send_message
        (fun _ => ⟨"tool_calls", [⟨"call_0", "memory_list", "\x7b\x7d"⟩], none⟩)
        (fun _ _ => "ok") (fun _ => some []) "soul" [] "hello").snd.fst = 10 := by
  have h := send_message_round_limit
    (fun _ => ⟨"tool_calls", [⟨"call_0", "memory_list", "\x7b\x7d"⟩], none⟩)
    (fun _ _ => "ok") (fun _ => some []) "soul" [] "hello" (by decide)
  exact ⟨h.1, h.2.1⟩

/-! ## C3 — session round-trip and path-traversal rejection -/

theorem decodeMsg_encodeMsg (m : SessMsg) : decodeMsg (encodeMsg m) = some m := by
  cases m <;> rfl

theorem decodeMsgList_encode (l : List SessMsg) :
    decodeMsgList (l.map encodeMsg) = some l := by
  induction l with
  | nil => rfl
  | cons m rest ih =>
      simp only [List.map_cons, decodeMsgList, decodeMsg_encodeMsg, ih]

theorem decodeSession_encodeSession (s : Session) :
    decodeSession (encodeSession s) = some ⟨s.id, s.title, s.started_at, s.messages⟩ := by
  have h1 : decodeSession (encodeSession s)
      = match decodeMsgList (s.messages.map encodeMsg) with
        | some msgs => some ⟨s.id, s.title, s.started_at, msgs⟩
        | none => none := rfl
  rw [h1, decodeMsgList_encode]

/-- C3 — serialising a session to its persisted JSON form and reloading it by
its id yields the identical ordered message list and the same title (for any
filesystem-safe id, i.e. one equal to its own filename component); and a load
depends on the requested id only through its filename component, so a
path-traversing request resolves to the same file as its final component. -/
theorem session_roundtrip (store : SessionStore) (s : Session)
    (hid : pathlibName s.id = s.id) :
    (load_session (save_session store s) s.id = .ok ⟨s.id, s.title, s.started_at, s.messages⟩)
    ∧ (∀ rid1 rid2 : String, pathlibName rid1 = pathlibName rid2 →
        load_session (save_session store s) rid1
          = load_session (save_session store s) rid2) := by
  have h1 : load_session (save_session store s) s.id
      = match decodeSession (encodeSession s) with
        | some s' => .ok s'
        | none => .error ("Session '" ++ s.id ++ "' is malformed") := by
    simp only [load_session, save_session]
    rw [hid, alistFind_insert_self]
    rfl
  constructor
  · rw [h1, decodeSession_encodeSession]
  · intro rid1 rid2 hr
    unfold load_session
    rw [hr]

/-- Witness for C3: a concrete two-message session round-trips, and a
traversal-shaped id loads the same session as its filename component. -/
theorem session_roundtrip_witness :
    load_session
        (save_session [] ⟨"2024-01-01_12-00-00", "First chat",
          "2024-01-01T12:00:00+00:00",
          [SessMsg.userMsg "hi", SessMsg.assistantMsg "hello",
           SessMsg.toolCallAudit "memory_list" (JVal.obj [])]⟩)
        "2024-01-01_12-00-00"
      = .ok ⟨"2024-01-01_12-00-00", "First chat", "2024-01-01T12:00:00+00:00",
          [SessMsg.userMsg "hi", SessMsg.assistantMsg "hello",
           SessMsg.toolCallAudit "memory_list" (JVal.obj [])]⟩
    ∧ load_session
        (save_session [] ⟨"2024-01-01_12-00-00", "First chat",
          "2024-01-01T12:00:00+00:00",
          [SessMsg.userMsg "hi", SessMsg.assistantMsg "hello",
           SessMsg.toolCallAudit "memory_list" (JVal.obj [])]⟩)
        "../../secrets/2024-01-01_12-00-00"
      = load_session
        (save_session [] ⟨"2024-01-01_12-00-00", "First chat",
          "2024-01-01T12:00:00+00:00",
          [SessMsg.userMsg "hi", SessMsg.assistantMsg "hello",
           SessMsg.toolCallAudit "memory_list" (JVal.obj [])]⟩)
        "2024-01-01_12-00-00" := by
  have h := session_roundtrip []
    ⟨"2024-01-01_12-00-00", "First chat", "2024-01-01T12:00:00+00:00",
     [SessMsg.userMsg "hi", SessMsg.assistantMsg "hello",
      SessMsg.toolCallAudit "memory_list" (JVal.obj [])]⟩ (by decide)
  exact ⟨h.1, h.2 "../../secrets/2024-01-01_12-00-00" "2024-01-01_12-00-00" (by decide)⟩

end Lumina
